import Mathlib

/-! Media framing and connection core of the glm4.5v-realtime-video client.

A shallow embedding of `tools/tools.go`, `client/client.go` and `events/event.go`.

* Go `int` / `int64` values are integers reduced to the signed 64-bit range after every
  arithmetic operation (`wrapInt64`); `uint16(x)` / `uint32(x)` are `x mod 2^16` / `x mod 2^32`.
* Go `[]byte` is `List UInt8`; a slice that may be `nil` is an `Option`.
* A Go function returning `(value, error)` is an `Except String value`.
-/

deriving instance DecidableEq for Except

namespace Glm

/-! ## Machine integers -/

/-- Reduction of an integer to the two's-complement range of a Go `int` (64 bits). -/
def wrapInt64 (x : Int) : Int := (x + 2 ^ 63) % 2 ^ 64 - 2 ^ 63

/-- Go `a + b` on `int`. -/
def intAdd (a b : Int) : Int := wrapInt64 (a + b)

/-- Go `a - b` on `int`. -/
def intSub (a b : Int) : Int := wrapInt64 (a - b)

/-- Go `a * b` on `int`. -/
def intMul (a b : Int) : Int := wrapInt64 (a * b)

/-- Go `a / b` on `int`: the quotient truncated toward zero. -/
def intDiv (a b : Int) : Int := wrapInt64 (Int.tdiv a b)

/-- Go conversion `uint32(x)` of an `int`. -/
def toUint32 (x : Int) : Nat := (x % 2 ^ 32).toNat

/-- Go conversion `uint16(x)` of an `int`. -/
def toUint16 (x : Int) : Nat := (x % 2 ^ 16).toNat

/-- Go conversion `byte(v)` of an unsigned value. -/
def toByte (v : Nat) : UInt8 := UInt8.ofNat (v % 256)

/-! ## Byte buffers -/

/-- Bytes of a Go string literal made of ASCII characters. -/
def strBytes (s : String) : List UInt8 := s.toList.map fun c => UInt8.ofNat c.toNat

/-- Overwrite `dst` from offset `off` on with the bytes of `src`, as far as `dst` reaches;
the length of `dst` never changes. -/
def overwrite : List UInt8 → Nat → List UInt8 → List UInt8
  | [], _, _ => []
  | d :: ds, 0, [] => d :: ds
  | _ :: ds, 0, s :: ss => s :: overwrite ds 0 ss
  | d :: ds, k + 1, src => d :: overwrite ds k src

/-- Go `copy(buf[lo:hi], src)`: copies `min (hi - lo) (len src)` bytes to offset `lo`. -/
def copySlice (buf : List UInt8) (lo hi : Nat) (src : List UInt8) : List UInt8 :=
  overwrite buf lo (src.take (hi - lo))

/-- Go `copy(buf[lo:], src)`. -/
def copyFrom (buf : List UInt8) (lo : Nat) (src : List UInt8) : List UInt8 :=
  overwrite buf lo src

/-- Four bytes stored by `binary.LittleEndian.PutUint32`. -/
def PutUint32Bytes (v : Nat) : List UInt8 :=
  [toByte v, toByte (v >>> 8), toByte (v >>> 16), toByte (v >>> 24)]

/-- Two bytes stored by `binary.LittleEndian.PutUint16`. -/
def PutUint16Bytes (v : Nat) : List UInt8 :=
  [toByte v, toByte (v >>> 8)]

/-- Go `binary.LittleEndian.PutUint32(buf[lo:lo+4], v)`. -/
def PutUint32 (buf : List UInt8) (lo : Nat) (v : Nat) : List UInt8 :=
  overwrite buf lo (PutUint32Bytes v)

/-- Go `binary.LittleEndian.PutUint16(buf[lo:lo+2], v)`. -/
def PutUint16 (buf : List UInt8) (lo : Nat) (v : Nat) : List UInt8 :=
  overwrite buf lo (PutUint16Bytes v)

/-- Lexical order of two character sequences by code point. -/
def charsLt : List Char → List Char → Bool
  | _, [] => false
  | [], _ :: _ => true
  | a :: as, b :: bs => decide (a.toNat < b.toNat) || (decide (a.toNat = b.toNat) && charsLt as bs)

/-- Go `a < b` on strings, the lexical order of their bytes; on UTF-8 text this is the
lexical order of the code points. -/
def strLt (a b : String) : Bool := charsLt a.toList b.toList

/-! ## `Pcm2Wav` -/

/-- Embedding of `Pcm2Wav` (tools.go): a zeroed buffer of `len(pcmBytes) + 44` bytes into
which the thirteen header fields and then the samples are stored, statement by statement. -/
def Pcm2Wav (pcmBytes : List UInt8) (sampleRate numChannels bitDepth : Int) :
    Except String (List UInt8) :=
  let headerSize : Int := 44
  let fileSize : Int := intAdd (pcmBytes.length : Int) headerSize
  let wavData : List UInt8 := List.replicate fileSize.toNat 0
  let wavData := copySlice wavData 0 4 (strBytes "RIFF")
  let wavData := PutUint32 wavData 4 (toUint32 (intSub fileSize 8))
  let wavData := copySlice wavData 8 12 (strBytes "WAVE")
  let wavData := copySlice wavData 12 16 (strBytes "fmt ")
  let wavData := PutUint32 wavData 16 16
  let wavData := PutUint16 wavData 20 1
  let wavData := PutUint16 wavData 22 (toUint16 numChannels)
  let wavData := PutUint32 wavData 24 (toUint32 sampleRate)
  let wavData := PutUint32 wavData 28
    (toUint32 (intDiv (intMul (intMul sampleRate numChannels) bitDepth) 8))
  let wavData := PutUint16 wavData 32 (toUint16 (intDiv (intMul numChannels bitDepth) 8))
  let wavData := PutUint16 wavData 34 (toUint16 bitDepth)
  let wavData := copySlice wavData 36 40 (strBytes "data")
  let wavData := PutUint32 wavData 40 (toUint32 (pcmBytes.length : Int))
  let wavData := copyFrom wavData 44 pcmBytes
  .ok wavData

/-! ### The layout the specification describes -/

/-- Little-endian encoding of an unsigned 32-bit field, least significant byte first. -/
def u32le (n : Nat) : List UInt8 :=
  [UInt8.ofNat (n % 256), UInt8.ofNat (n / 256 % 256), UInt8.ofNat (n / 65536 % 256),
   UInt8.ofNat (n / 16777216 % 256)]

/-- Little-endian encoding of an unsigned 16-bit field, least significant byte first. -/
def u16le (n : Nat) : List UInt8 :=
  [UInt8.ofNat (n % 256), UInt8.ofNat (n / 256 % 256)]

/-- Value of a little-endian byte string. -/
def leValue : List UInt8 → Nat
  | [] => 0
  | b :: bs => b.toNat + 256 * leValue bs

/-- Unsigned little-endian field of `width` bytes read at offset `off`. -/
def readLE (buf : List UInt8) (off width : Nat) : Nat :=
  leValue ((buf.drop off).take width)

/-- Container layout of the specification: the 44 header bytes followed by the samples. -/
def wavLayout (samples : List UInt8) (sampleRate channels bitDepth : Nat) : List UInt8 :=
  strBytes "RIFF" ++ u32le (samples.length + 36) ++ strBytes "WAVE" ++ strBytes "fmt " ++
    u32le 16 ++ u16le 1 ++ u16le channels ++ u32le sampleRate ++
    u32le (sampleRate * channels * bitDepth / 8) ++ u16le (channels * bitDepth / 8) ++
    u16le bitDepth ++ strBytes "data" ++ u32le samples.length ++ samples

/-! ## `base64.StdEncoding` -/

/-- Value of a character in the standard base64 alphabet `A–Z a–z 0–9 + /`. -/
def b64Value (c : Char) : Option Nat :=
  if 'A' ≤ c ∧ c ≤ 'Z' then some (c.toNat - 65)
  else if 'a' ≤ c ∧ c ≤ 'z' then some (c.toNat - 97 + 26)
  else if '0' ≤ c ∧ c ≤ '9' then some (c.toNat - 48 + 52)
  else if c = '+' then some 62
  else if c = '/' then some 63
  else none

/-- Text of the `CorruptInputError` of the decoder; the byte offset it carries is left out. -/
def corruptInput : String := "illegal base64 data"

/-- Decoding of the input once carriage returns and line feeds are dropped, one quantum of
four characters at a time: a full quantum gives three bytes, `xx==` one byte and `xxx=` two
bytes, and padding is accepted only as the end of the input. -/
def decodeQuanta : List Char → Except String (List UInt8)
  | [] => .ok []
  | [_] => .error corruptInput
  | [_, _] => .error corruptInput
  | [_, _, _] => .error corruptInput
  | c0 :: c1 :: c2 :: c3 :: rest =>
    match b64Value c0, b64Value c1 with
    | some v0, some v1 =>
      if c2 = '=' then
        if c3 = '=' ∧ rest = [] then .ok [toByte ((v0 <<< 18 ||| v1 <<< 12) >>> 16)]
        else .error corruptInput
      else
        match b64Value c2 with
        | none => .error corruptInput
        | some v2 =>
          if c3 = '=' then
            if rest = [] then
              .ok [toByte ((v0 <<< 18 ||| v1 <<< 12 ||| v2 <<< 6) >>> 16),
                   toByte ((v0 <<< 18 ||| v1 <<< 12 ||| v2 <<< 6) >>> 8)]
            else .error corruptInput
          else
            match b64Value c3 with
            | none => .error corruptInput
            | some v3 =>
              match decodeQuanta rest with
              | .error e => .error e
              | .ok tail =>
                .ok (toByte ((v0 <<< 18 ||| v1 <<< 12 ||| v2 <<< 6 ||| v3) >>> 16) ::
                     toByte ((v0 <<< 18 ||| v1 <<< 12 ||| v2 <<< 6 ||| v3) >>> 8) ::
                     toByte (v0 <<< 18 ||| v1 <<< 12 ||| v2 <<< 6 ||| v3) :: tail)
    | _, _ => .error corruptInput

/-- Model of Go's `base64.StdEncoding.DecodeString` (standard library): standard alphabet,
mandatory `=` padding, `\r` and `\n` ignored wherever they stand, trailing bits of a padded
quantum not checked. -/
def DecodeString (s : String) : Except String (List UInt8) :=
  decodeQuanta (s.toList.filter fun c => c ≠ '\r' ∧ c ≠ '\n')

/-! ## `InjectSPSPPS` -/

/-- Embedding of `InjectSPSPPS` (tools.go). -/
def InjectSPSPPS (rawH264 : List UInt8) (b64SPS b64PPS : String) :
    Except String (List UInt8) :=
  match DecodeString b64SPS with
  | .error err => .error ("decode SPS failed: " ++ err)
  | .ok sps =>
    match DecodeString b64PPS with
    | .error err => .error ("decode PPS failed: " ++ err)
    | .ok pps =>
      let result : List UInt8 := []
      let result := result ++ [0x00, 0x00, 0x00, 0x01]
      let result := result ++ sps
      let result := result ++ [0x00, 0x00, 0x00, 0x01]
      let result := result ++ pps
      let result := result ++ rawH264
      .ok result

/-- Character of the standard base64 alphabet for a six-bit value. -/
def b64Char (v : Nat) : Char :=
  if v < 26 then Char.ofNat (65 + v)
  else if v < 52 then Char.ofNat (97 + (v - 26))
  else if v < 62 then Char.ofNat (48 + (v - 52))
  else if v = 62 then '+'
  else '/'

/-- Characters of the padded standard base64 encoding, three input bytes at a time. -/
def encodeQuanta : List UInt8 → List Char
  | [] => []
  | [a] =>
    [b64Char (a.toNat >>> 2), b64Char ((a.toNat <<< 4) % 64), '=', '=']
  | [a, b] =>
    [b64Char (a.toNat >>> 2), b64Char ((a.toNat <<< 4 ||| b.toNat >>> 4) % 64),
     b64Char ((b.toNat <<< 2) % 64), '=']
  | a :: b :: c :: rest =>
    b64Char (a.toNat >>> 2) :: b64Char ((a.toNat <<< 4 ||| b.toNat >>> 4) % 64) ::
      b64Char ((b.toNat <<< 2 ||| c.toNat >>> 6) % 64) :: b64Char (c.toNat % 64) ::
      encodeQuanta rest

/-- Model of Go's `base64.StdEncoding.EncodeToString` (standard library), which
`encoding/json` applies to a `[]byte` field. -/
def EncodeToString (bs : List UInt8) : String := String.mk (encodeQuanta bs)

/-! ## Events (`events/*.go`) and their JSON encoding

The text produced by `json.Marshal` is kept as the syntax tree of the JSON value; the members
of an object stand in the order of the struct fields. -/

/-- Syntax tree of a JSON text. -/
inductive JValue where
  | null
  | bool (b : Bool)
  | int (n : Int)
  | number (text : String)
  | str (s : String)
  | arr (items : List JValue)
  | obj (members : List (String × JValue))

/-- A Go `float64` or `float32` field, by what `encoding/json` tells apart: the value zero,
a finite non-zero number (kept as its JSON text), or NaN / an infinity. -/
inductive GoFloat where
  | zero
  | finite (text : String)
  | nonFinite

/-- Dynamic value of a field of type `any`: the kinds the comment on
`MaxResponseOutputTokens` names, a float, or a value of a kind JSON cannot encode
(a channel or a function). -/
inductive GoAny where
  | str (s : String)
  | int (n : Int)
  | float (f : GoFloat)
  | unsupported

/-- Go type `ToolProperty` (tools.go of the events package). -/
structure ToolProperty where
  Type_ : String
  Description : String

/-- Go type `ToolParameters`; a `nil` map or slice is `none`. -/
structure ToolParameters where
  Type_ : String
  Properties : Option (List (String × ToolProperty))
  Required : Option (List String)

/-- Go type `Tool`. -/
structure Tool where
  Type_ : String
  Name : String
  Description : String
  Parameters : ToolParameters

/-- Go type `Content` (items.go). -/
structure Content where
  Type_ : String
  Transcript : Option String
  Text : Option String

/-- Go type `Item` (items.go). -/
structure Item where
  ID : String
  Object : String
  Type_ : String
  Status : String
  Role : String
  Content : List Content
  Output : Option String
  Name : String
  CallId : String
  Arguments : String

/-- Go type `TokenDetails` (response.go). -/
structure TokenDetails where
  TextTokens : Int
  AudioTokens : Int

/-- Go type `Usage` (response.go). -/
structure Usage where
  TotalTokens : Int
  InputTokens : Int
  OutputTokens : Int
  InputTokenDetails : TokenDetails
  OutputTokenDetails : TokenDetails

/-- Go type `Response` (response.go). -/
structure Response where
  ID : String
  Modalities : List String
  Object : String
  Status : String
  Instructions : String
  Voice : String
  OutputAudioFormat : String
  Tools : List Tool
  ToolChoice : String
  Temperature : GoFloat
  MaxOutputTokens : Int
  Usage : Option Usage
  Output : List Item

/-- Go type `InputAudioTranscription`. -/
structure InputAudioTranscription where
  Enabled : Bool
  Model : String

/-- Go type `TurnDetection`. -/
structure TurnDetection where
  Type_ : String
  Threshold : GoFloat
  PrefixPaddingMs : Int
  SilenceDurationMs : Int
  CreateResponse : Bool
  InterruptResponse : Bool

/-- Go type `NoiseReduction`. -/
structure NoiseReduction where
  Type_ : String

/-- Go type `RateLimit`. -/
structure RateLimit where
  Name : String
  Limit : Int
  Remaining : Int
  ResetSeconds : GoFloat

/-- Go type `SimpleBrowser`. -/
structure SimpleBrowser where
  Description : String
  SearchMeta : String
  Meta : String
  TextCitation : String

/-- Go type `ClonedInfo`. -/
structure ClonedInfo where
  Audio : String
  Text : String

/-- Go type `BetaFields`. -/
structure BetaFields where
  ChatMode : String
  FPS : Int
  TTSSource : String
  TTSCloned : Option ClonedInfo
  SimpleBrowser : Option SimpleBrowser
  AutoSearch : Option Bool

/-- Go type `Session`. -/
structure Session where
  ID : String
  Object : String
  Model : String
  Modalities : List String
  Instructions : String
  Voice : String
  InputAudioFormat : String
  OutputAudioFormat : String
  InputAudioTranscription : Option InputAudioTranscription
  TurnDetection : Option TurnDetection
  Tools : List Tool
  ToolChoice : String
  Temperature : GoFloat
  MaxResponseOutputTokens : Option GoAny
  InputAudioNoiseReduction : Option NoiseReduction
  BetaFields : Option BetaFields
  FlowBackend : Option String
  TTSBackend : Option String

/-- Go type `EventError`. -/
structure EventError where
  Type_ : String
  Code : String
  Message : String
  Param : String

/-- Go type `Conversation`. -/
structure Conversation where
  ID : String
  Object : String

/-- Go type `ContentPart`. -/
structure ContentPart where
  Type_ : String
  Text : String
  Audio : String
  Transcript : String

/-- Go type `Event` (event.go), field for field (`Type` is spelled `Type_`); a pointer is an
`Option`, and so is the
`[]byte` field `VideoFrame`, whose `nil` the client tests for. A slice whose `nil` and empty
values behave alike everywhere is a `List`. -/
structure Event where
  EventID : String
  Type_ : String
  Session : Option Session
  Audio : String
  Response : Option Response
  ItemID : String
  PreviousItemID : String
  ResponseID : String
  OutputIndex : Int
  ContentIndex : Int
  Delta : String
  Item : Option Item
  ClientTimestamp : Int
  Text : Option String
  Transcript : Option String
  Name : String
  CallID : String
  Arguments : String
  VideoFrame : Option (List UInt8)
  Instructions : String
  Error : Option EventError
  Conversation : Option Conversation
  Part : Option ContentPart
  AudioStartMS : Int
  AudioEndMS : Int
  RateLimits : List RateLimit

/-- Event type `input_audio_buffer.append_video_frame`. -/
def RealtimeClientVideoAppend : String := "input_audio_buffer.append_video_frame"

/-! ### `json.Marshal` on the event types

Every function below follows the struct tags of its Go type: a field tagged `omitempty` is
left out when it is empty (`""`, `0`, `false`, a `nil` pointer or interface, a slice of
length zero); `json.Marshal` fails on NaN, on an infinity and on a value of an unsupported
kind. -/

/-- Members of a JSON object from the fields of a struct, in order; a field whose value is
`none` has been left out by `omitempty`. -/
def members (fields : List (String × Option JValue)) : List (String × JValue) :=
  fields.filterMap fun kv => kv.2.map fun v => (kv.1, v)

/-- A `string` field tagged `omitempty`. -/
def omitString (s : String) : Option JValue := if s = "" then none else some (.str s)

/-- An `int` or `int64` field tagged `omitempty`. -/
def omitInt (n : Int) : Option JValue := if n = 0 then none else some (.int n)

/-- A `bool` field tagged `omitempty`. -/
def omitBool (b : Bool) : Option JValue := if b then some (.bool true) else none

/-- A slice field tagged `omitempty`, its elements encoded by `f`. -/
def omitList {α : Type} (f : α → JValue) (l : List α) : Option JValue :=
  if l.isEmpty then none else some (.arr (l.map f))

/-- A `[]byte` field tagged `omitempty`: base64 text unless `nil` or of length zero. -/
def omitBytes : Option (List UInt8) → Option JValue
  | none => none
  | some [] => none
  | some (b :: bs) => some (.str (EncodeToString (b :: bs)))

/-- A floating-point value. -/
def marshalFloat : GoFloat → Except String JValue
  | .zero => .ok (.number "0")
  | .finite text => .ok (.number text)
  | .nonFinite => .error "json: unsupported value"

/-- A floating-point field tagged `omitempty`. -/
def omitFloat : GoFloat → Except String (Option JValue)
  | .zero => .ok none
  | .finite text => .ok (some (.number text))
  | .nonFinite => .error "json: unsupported value"

/-- A pointer field tagged `omitempty` whose target is encoded by the fallible `f`. -/
def omitPtr {α : Type} (f : α → Except String JValue) : Option α → Except String (Option JValue)
  | none => .ok none
  | some a =>
    match f a with
    | .error err => .error err
    | .ok v => .ok (some v)

/-- A slice field tagged `omitempty` whose elements are encoded by the fallible `f`. -/
def omitListM {α : Type} (f : α → Except String JValue) (l : List α) :
    Except String (Option JValue) :=
  if l.isEmpty then .ok none
  else
    match l.mapM f with
    | .error err => .error err
    | .ok vs => .ok (some (.arr vs))

/-- JSON object of a `ToolProperty`, by its struct tags. -/
def marshalToolProperty (p : ToolProperty) : JValue :=
  .obj (members [("type", omitString p.Type_), ("description", omitString p.Description)])

/-- `encoding/json` writes the keys of a map in sorted order. -/
def marshalToolParameters (p : ToolParameters) : JValue :=
  .obj (members [
    ("type", some (.str p.Type_)),
    ("properties", some (match p.Properties with
      | none => .null
      | some m => .obj ((m.insertionSort fun a b => strLt b.1 a.1 = false).map fun kv =>
          (kv.1, marshalToolProperty kv.2)))),
    ("required", some (match p.Required with
      | none => .null
      | some l => .arr (l.map .str)))])

/-- JSON object of a `Tool`, by its struct tags. -/
def marshalTool (t : Tool) : JValue :=
  .obj (members [
    ("type", some (.str t.Type_)),
    ("name", some (.str t.Name)),
    ("description", some (.str t.Description)),
    ("parameters", some (marshalToolParameters t.Parameters))])

/-- JSON object of a `Content`, by its struct tags. -/
def marshalContent (c : Content) : JValue :=
  .obj (members [
    ("type", omitString c.Type_),
    ("transcript", c.Transcript.map .str),
    ("text", c.Text.map .str)])

/-- JSON object of a `Item`, by its struct tags. -/
def marshalItem (i : Item) : JValue :=
  .obj (members [
    ("id", some (.str i.ID)),
    ("object", some (.str i.Object)),
    ("type", some (.str i.Type_)),
    ("status", some (.str i.Status)),
    ("role", omitString i.Role),
    ("content", omitList marshalContent i.Content),
    ("output", i.Output.map .str),
    ("name", omitString i.Name),
    ("call_id", omitString i.CallId),
    ("arguments", omitString i.Arguments)])

/-- JSON object of a `TokenDetails`, by its struct tags. -/
def marshalTokenDetails (d : TokenDetails) : JValue :=
  .obj (members [("text_tokens", some (.int d.TextTokens)),
    ("audio_tokens", some (.int d.AudioTokens))])

/-- JSON object of a `Usage`, by its struct tags. -/
def marshalUsage (u : Usage) : JValue :=
  .obj (members [
    ("total_tokens", some (.int u.TotalTokens)),
    ("input_tokens", some (.int u.InputTokens)),
    ("output_tokens", some (.int u.OutputTokens)),
    ("input_token_details", some (marshalTokenDetails u.InputTokenDetails)),
    ("output_token_details", some (marshalTokenDetails u.OutputTokenDetails))])

/-- JSON object of a `Response`, by its struct tags. -/
def marshalResponse (r : Response) : Except String JValue :=
  match omitFloat r.Temperature with
  | .error err => .error err
  | .ok temperature =>
    .ok (.obj (members [
      ("id", omitString r.ID),
      ("modalities", omitList .str r.Modalities),
      ("object", omitString r.Object),
      ("status", omitString r.Status),
      ("instructions", omitString r.Instructions),
      ("voice", omitString r.Voice),
      ("output_audio_format", omitString r.OutputAudioFormat),
      ("tools", omitList marshalTool r.Tools),
      ("tool_choice", omitString r.ToolChoice),
      ("temperature", temperature),
      ("max_output_tokens", omitInt r.MaxOutputTokens),
      ("usage", r.Usage.map marshalUsage),
      ("output", omitList marshalItem r.Output)]))

/-- JSON object of a `InputAudioTranscription`, by its struct tags. -/
def marshalInputAudioTranscription (t : InputAudioTranscription) : JValue :=
  .obj (members [("enabled", some (.bool t.Enabled)), ("model", some (.str t.Model))])

/-- JSON object of a `TurnDetection`, by its struct tags. -/
def marshalTurnDetection (t : TurnDetection) : Except String JValue :=
  match omitFloat t.Threshold with
  | .error err => .error err
  | .ok threshold =>
    .ok (.obj (members [
      ("type", omitString t.Type_),
      ("threshold", threshold),
      ("prefix_padding_ms", omitInt t.PrefixPaddingMs),
      ("silence_duration_ms", omitInt t.SilenceDurationMs),
      ("create_response", omitBool t.CreateResponse),
      ("interrupt_response", omitBool t.InterruptResponse)]))

/-- JSON object of a `NoiseReduction`, by its struct tags. -/
def marshalNoiseReduction (n : NoiseReduction) : JValue :=
  .obj (members [("type", some (.str n.Type_))])

/-- JSON object of a `RateLimit`, by its struct tags. -/
def marshalRateLimit (l : RateLimit) : Except String JValue :=
  match marshalFloat l.ResetSeconds with
  | .error err => .error err
  | .ok resetSeconds =>
    .ok (.obj (members [
      ("name", some (.str l.Name)),
      ("limit", some (.int l.Limit)),
      ("remaining", some (.int l.Remaining)),
      ("reset_seconds", some resetSeconds)]))

/-- JSON object of a `SimpleBrowser`, by its struct tags. -/
def marshalSimpleBrowser (b : SimpleBrowser) : JValue :=
  .obj (members [
    ("description", some (.str b.Description)),
    ("search_meta", some (.str b.SearchMeta)),
    ("meta", some (.str b.Meta)),
    ("text_citation", some (.str b.TextCitation))])

/-- JSON object of a `ClonedInfo`, by its struct tags. -/
def marshalClonedInfo (c : ClonedInfo) : JValue :=
  .obj (members [("audio", omitString c.Audio), ("text", omitString c.Text)])

/-- JSON object of a `BetaFields`, by its struct tags. -/
def marshalBetaFields (b : BetaFields) : JValue :=
  .obj (members [
    ("chat_mode", omitString b.ChatMode),
    ("fps", omitInt b.FPS),
    ("tts_source", omitString b.TTSSource),
    ("tts_cloned", b.TTSCloned.map marshalClonedInfo),
    ("simple_browser", b.SimpleBrowser.map marshalSimpleBrowser),
    ("auto_search", b.AutoSearch.map .bool)])

/-- The dynamic value of a non-nil `any`. -/
def marshalAny : GoAny → Except String JValue
  | .str s => .ok (.str s)
  | .int n => .ok (.int n)
  | .float f => marshalFloat f
  | .unsupported => .error "json: unsupported type"

/-- JSON object of a `Session`, by its struct tags. -/
def marshalSession (s : Session) : Except String JValue :=
  match omitPtr marshalTurnDetection s.TurnDetection with
  | .error err => .error err
  | .ok turnDetection =>
    match omitFloat s.Temperature with
    | .error err => .error err
    | .ok temperature =>
      match omitPtr marshalAny s.MaxResponseOutputTokens with
      | .error err => .error err
      | .ok maxTokens =>
        .ok (.obj (members [
          ("id", omitString s.ID),
          ("object", omitString s.Object),
          ("model", omitString s.Model),
          ("modalities", omitList .str s.Modalities),
          ("instructions", omitString s.Instructions),
          ("voice", omitString s.Voice),
          ("input_audio_format", omitString s.InputAudioFormat),
          ("output_audio_format", omitString s.OutputAudioFormat),
          ("input_audio_transcription",
            s.InputAudioTranscription.map marshalInputAudioTranscription),
          ("turn_detection", turnDetection),
          ("tools", omitList marshalTool s.Tools),
          ("tool_choice", omitString s.ToolChoice),
          ("temperature", temperature),
          ("max_response_output_tokens", maxTokens),
          ("input_audio_noise_reduction", s.InputAudioNoiseReduction.map marshalNoiseReduction),
          ("beta_fields", s.BetaFields.map marshalBetaFields),
          ("flow_backend", s.FlowBackend.map .str),
          ("tts_backend", s.TTSBackend.map .str)]))

/-- JSON object of a `EventError`, by its struct tags. -/
def marshalEventError (e : EventError) : JValue :=
  .obj (members [
    ("type", some (.str e.Type_)),
    ("code", some (.str e.Code)),
    ("message", some (.str e.Message)),
    ("param", omitString e.Param)])

/-- JSON object of a `Conversation`, by its struct tags. -/
def marshalConversation (c : Conversation) : JValue :=
  .obj (members [("id", some (.str c.ID)), ("object", some (.str c.Object))])

/-- JSON object of a `ContentPart`, by its struct tags. -/
def marshalContentPart (p : ContentPart) : JValue :=
  .obj (members [
    ("type", some (.str p.Type_)),
    ("text", omitString p.Text),
    ("audio", omitString p.Audio),
    ("transcript", omitString p.Transcript)])

/-- The fields of the JSON object of an event, by the struct tags of `Event`, given the
encodings of the three fields whose encoding can fail. -/
def eventFields (e : Event) (session response rateLimits : Option JValue) :
    List (String × Option JValue) := [
  ("event_id", omitString e.EventID),
  ("type", some (.str e.Type_)),
  ("session", session),
  ("audio", omitString e.Audio),
  ("response", response),
  ("item_id", omitString e.ItemID),
  ("previous_item_id", omitString e.PreviousItemID),
  ("response_id", omitString e.ResponseID),
  ("output_index", omitInt e.OutputIndex),
  ("content_index", omitInt e.ContentIndex),
  ("delta", some (.str e.Delta)),
  ("item", e.Item.map marshalItem),
  ("client_timestamp", omitInt e.ClientTimestamp),
  ("text", e.Text.map .str),
  ("transcript", e.Transcript.map .str),
  ("name", omitString e.Name),
  ("call_id", omitString e.CallID),
  ("arguments", omitString e.Arguments),
  ("video_frame", omitBytes e.VideoFrame),
  ("instructions", omitString e.Instructions),
  ("error", e.Error.map marshalEventError),
  ("conversation", e.Conversation.map marshalConversation),
  ("part", e.Part.map marshalContentPart),
  ("audio_start_ms", omitInt e.AudioStartMS),
  ("audio_end_ms", omitInt e.AudioEndMS),
  ("rate_limits", rateLimits)]

/-- Model of `json.Marshal(e)` for an `*Event`. -/
def marshalEvent (e : Event) : Except String JValue :=
  match omitPtr marshalSession e.Session with
  | .error err => .error err
  | .ok session =>
    match omitPtr marshalResponse e.Response with
    | .error err => .error err
    | .ok response =>
      match omitListM marshalRateLimit e.RateLimits with
      | .error err => .error err
      | .ok rateLimits => .ok (.obj (members (eventFields e session response rateLimits)))

/-- A Go string that is either empty or the JSON text of a value. -/
inductive JsonText where
  | empty
  | json (v : JValue)

/-- Embedding of `Event.ToJson` (event.go): the JSON text, or `""` when `json.Marshal`
fails. -/
def Event.ToJson (e : Event) : JsonText :=
  match marshalEvent e with
  | .error _ => .empty
  | .ok json => .json json

/-- Value of the member `key` of a JSON object. -/
def JValue.member (key : String) : JValue → Option JValue
  | .obj ms => ms.lookup key
  | _ => none

/-- Keys of a JSON object, in order. -/
def JValue.keys : JValue → List String
  | .obj ms => ms.map Prod.fst
  | _ => []

/-- Value of the member `key` of the object a JSON text holds. -/
def JsonText.member (key : String) : JsonText → Option JValue
  | .empty => none
  | .json v => v.member key

/-- The integer a JSON value is, if it is one. -/
def JValue.asInt : JValue → Option Int
  | .int n => some n
  | _ => none

/-- An event with only its type set, every other field at its zero value. -/
def Event.ofType (t : String) : Event :=
  { EventID := "", Type_ := t, Session := none, Audio := "", Response := none, ItemID := "",
    PreviousItemID := "", ResponseID := "", OutputIndex := 0, ContentIndex := 0, Delta := "",
    Item := none, ClientTimestamp := 0, Text := none, Transcript := none, Name := "",
    CallID := "", Arguments := "", VideoFrame := none, Instructions := "", Error := none,
    Conversation := none, Part := none, AudioStartMS := 0, AudioEndMS := 0, RateLimits := [] }

/-! ## The process and its surroundings

A call is a function of the state it reads and of what the surroundings answer (the result
of the dial, of a socket write, of a file operation, the clock); it returns the new state,
the list of operations it performed on the surroundings, in order, and how it ended. Output
of `log.Printf` is not recorded. The lock of the client makes each method atomic, so a method
is one step. -/

/-- A `*websocket.Conn` handle. -/
structure Conn where
  id : Nat
deriving DecidableEq

/-- Go type `audio.Format` (go-audio): channel count and sample rate. -/
structure AudioFormat where
  NumChannels : Int
  SampleRate : Int
deriving DecidableEq

/-- Go type `audio.IntBuffer` (go-audio): decoded samples with their format. -/
structure IntBuffer where
  Format : AudioFormat
  Data : List Int
  SourceBitDepth : Int
deriving DecidableEq

/-- Operations a call performs on its surroundings. -/
inductive Effect where
  | dial (url : String) (authorization : Option String)
  | setCloseHandler (conn : Conn)
  | goReadWsMsg
  | writeMessage (conn : Conn) (data : JsonText) (err : Option String)
  | closeConn (conn : Conn)
  | mkdirTemp (dir : String)
  | writeFile (path : String) (data : List UInt8)
  | runCommand (args : List String)
  | removeAll (path : String)
  | exit (code : Nat)
  | setReadDeadline (conn : Conn)
  | readMessage (conn : Conn)
  | onReceived (event : Event)
  | wgDone
  | createTemp (path : String)
  | newEncoder (path : String) (sampleRate bitDepth numChans : Int)
  | encoderWrite (buf : IntBuffer)
  | encoderClose
  | closeFile (path : String)

/-- How a call ends: it returns, the process exits (`log.Fatal` calls `os.Exit(1)`), or it
panics. -/
inductive Outcome (α : Type) where
  | returned (value : α)
  | exited (code : Nat)
  | panicked (msg : String)
deriving DecidableEq

/-! ## `sortFiles` and `ExtractFramesToBase64` -/

/-- Body of the inner loop of `sortFiles`: `if files[i] > files[j]` exchange the two. -/
def exchange (files : List String) (i j : Nat) : List String :=
  match files[i]?, files[j]? with
  | some a, some b => if strLt b a then (files.set i b).set j a else files
  | _, _ => files

/-- Embedding of `sortFiles` (tools.go): `for i := 0; i < n; i++` around
`for j := i + 1; j < n; j++`, where `n = len(files)` stays fixed. -/
def sortFiles (files : List String) : List String :=
  (List.range files.length).foldl
    (fun fs i => (List.range' (i + 1) (files.length - (i + 1))).foldl (fun fs j => exchange fs i j) fs)
    files

/-- Answers of the operating system during one call of `ExtractFramesToBase64`. -/
structure ExtractEnv where
  /-- Result of `os.MkdirTemp("", "video_process_*")`. -/
  mkdirTemp : Except String String
  /-- Error of `os.WriteFile(path, data, 0644)`, if any. -/
  writeFile : String → List UInt8 → Option String
  /-- Error of `cmd.Run()` for the given argument list, if any. -/
  runCommand : List String → Option String
  /-- Result of `filepath.Glob(pattern)`, in the order it lists the names. -/
  glob : String → Except String (List String)
  /-- Result of `os.ReadFile(path)`. -/
  readFile : String → Except String (List UInt8)

/-- Go `filepath.Join(dir, name)` for a clean directory path and a plain file name. -/
def pathJoin (dir name : String) : String := dir ++ "/" ++ name

/-- The loop `for _, imgPath := range matches` of `ExtractFramesToBase64`: the files read in
order, or the first read error. -/
def readImages (readFile : String → Except String (List UInt8)) :
    List String → Except String (List (List UInt8))
  | [] => .ok []
  | imgPath :: rest =>
    match readFile imgPath with
    | .error err => .error ("read image file failed: " ++ err)
    | .ok imgData =>
      match readImages readFile rest with
      | .error err => .error err
      | .ok images => .ok (imgData :: images)

/-- Result of a call of `ExtractFramesToBase64`. -/
structure ExtractStep where
  effects : List Effect
  outcome : Outcome (Except String (List (List UInt8)))

/-- The argument list of the `ffmpeg` command. -/
def ffmpegArgs (h264Path framePattern : String) : List String :=
  ["ffmpeg", "-f", "h264", "-i", h264Path, "-vf", "fps=2", "-qscale:v", "2", "-y", framePattern]

/-- Embedding of `ExtractFramesToBase64` (tools.go); `listed` is the slice `matches` as
`filepath.Glob` returns it and `sorted` the same slice after `sortFiles`. The deferred `os.RemoveAll(tempDir)`
runs on every return after the directory exists; it does not run when `log.Fatal` ends the
process. -/
def ExtractFramesToBase64 (env : ExtractEnv) (data : List UInt8) (spsB64 ppsB64 : String) :
    ExtractStep :=
  match env.mkdirTemp with
  | .error err => ⟨[], .returned (.error ("failed to create temp dir: " ++ err))⟩
  | .ok tempDir =>
    let h264Path := pathJoin tempDir "input.h264"
    match InjectSPSPPS data spsB64 ppsB64 with
    | .error _ => ⟨[.mkdirTemp tempDir, .exit 1], .exited 1⟩
    | .ok fixedData =>
      match env.writeFile h264Path fixedData with
      | some err =>
        ⟨[.mkdirTemp tempDir, .writeFile h264Path fixedData, .removeAll tempDir],
          .returned (.error ("write h264 file failed: " ++ err))⟩
      | none =>
        let framePattern := pathJoin tempDir "frame_%04d.jpg"
        let args := ffmpegArgs h264Path framePattern
        match env.runCommand args with
        | some err =>
          ⟨[.mkdirTemp tempDir, .writeFile h264Path fixedData, .runCommand args,
              .removeAll tempDir],
            .returned (.error ("ffmpeg execution failed: " ++ err))⟩
        | none =>
          match env.glob (pathJoin tempDir "frame_*.jpg") with
          | .error err =>
            ⟨[.mkdirTemp tempDir, .writeFile h264Path fixedData, .runCommand args,
                .removeAll tempDir],
              .returned (.error ("glob pattern error: " ++ err))⟩
          | .ok listed =>
            let sorted := sortFiles listed
            ⟨[.mkdirTemp tempDir, .writeFile h264Path fixedData, .runCommand args,
                .removeAll tempDir],
              .returned (readImages env.readFile sorted)⟩

/-! ## The client (`client/client.go`) -/

/-- Go type `realtimeClient`; the lock is not a field, each method being one step.
`wg` is the counter of the wait group, `none` while the pointer is `nil`. -/
structure realtimeClient where
  url : String
  apiKey : String
  onReceived : Option (Event → Option String)
  conn : Option Conn
  isConnected : Bool
  wg : Option Nat

/-- Embedding of `NewRealtimeClient`. -/
def NewRealtimeClient (url apiKey : String) (onReceived : Option (Event → Option String)) :
    realtimeClient :=
  { url := url, apiKey := apiKey, onReceived := onReceived, conn := none,
    isConnected := false, wg := none }

/-- Result of a method that does not touch an event. -/
structure Step where
  client : realtimeClient
  effects : List Effect
  outcome : Outcome (Option String)

/-- Result of a method given an `*Event`: also the event as the caller finds it afterwards. -/
structure SendStep where
  client : realtimeClient
  event : Event
  effects : List Effect
  outcome : Outcome (Option String)

/-- Embedding of `realtimeClient.Connect`; `dialResult` is what `Dial` answers. -/
def Connect (dialResult : Except String Conn) (r : realtimeClient) : Step :=
  if r.isConnected then ⟨r, [], .returned none⟩
  else
    let header : Option String := if r.apiKey ≠ "" then some ("Bearer " ++ r.apiKey) else none
    match dialResult with
    | .error err => ⟨r, [.dial r.url header], .returned (some err)⟩
    | .ok c =>
      ⟨{ r with conn := some c, isConnected := true, wg := some 1 },
        [.dial r.url header, .setCloseHandler c, .goReadWsMsg], .returned none⟩

/-- Embedding of `realtimeClient.IsConnected`. -/
def IsConnected (r : realtimeClient) : Bool := r.isConnected

/-- Embedding of `realtimeClient.Disconnect`; `closeErr` is what `Close` answers. -/
def Disconnect (closeErr : Option String) (r : realtimeClient) : Step :=
  if !r.isConnected then ⟨r, [], .returned none⟩
  else
    match r.conn with
    | none => ⟨{ r with isConnected := false }, [], .panicked "nil pointer dereference"⟩
    | some c => ⟨{ r with isConnected := false }, [.closeConn c], .returned closeErr⟩

/-- The assignment `if event.ClientTimestamp <= 0 then event.ClientTimestamp = now`. -/
def stampEvent (now : Int) (event : Event) : Event :=
  if event.ClientTimestamp ≤ 0 then { event with ClientTimestamp := now } else event

/-- Embedding of `realtimeClient.Send`; `now` is `time.Now().UnixMilli()` and `writeErr`
what `WriteMessage` answers. -/
def Send (now : Int) (writeErr : Option String) (r : realtimeClient) (event : Event) :
    SendStep :=
  if !r.isConnected then ⟨r, event, [], .returned (some "not connected")⟩
  else
    let event := stampEvent now event
    match r.conn with
    | none => ⟨r, event, [], .panicked "nil pointer dereference"⟩
    | some c => ⟨r, event, [.writeMessage c event.ToJson writeErr], .returned writeErr⟩

/-- The loop `for index := range frames` of `SendFrameByVideo`, from frame `index` on;
`writeErr i` is what `WriteMessage` answers for frame `i`. Returns the event as left by the
loop, the writes made, and the outcome. -/
def sendFrames (conn : Option Conn) (writeErr : Nat → Option String) :
    List (List UInt8) → Nat → Event → Event × List Effect × Outcome (Option String)
  | [], _, event => (event, [], .returned none)
  | frame :: rest, index, event =>
    let event := { event with VideoFrame := some frame }
    match conn with
    | none => (event, [], .panicked "nil pointer dereference")
    | some c =>
      match writeErr index with
      | some err => (event, [.writeMessage c event.ToJson (some err)], .returned (some err))
      | none =>
        let r := sendFrames conn writeErr rest (index + 1) event
        (r.1, .writeMessage c event.ToJson none :: r.2.1, r.2.2)

/-- Embedding of `realtimeClient.SendFrameByVideo`. -/
def SendFrameByVideo (now : Int) (env : ExtractEnv) (writeErr : Nat → Option String)
    (r : realtimeClient) (event : Event) : SendStep :=
  if RealtimeClientVideoAppend ≠ event.Type_ then
    ⟨r, event, [], .returned (some "event type is not RealtimeClientVideoAppend")⟩
  else
    match event.VideoFrame with
    | none => ⟨r, event, [], .returned (some "event videoFrame is nil")⟩
    | some video =>
      if !r.isConnected then ⟨r, event, [], .returned (some "not connected")⟩
      else
        let event := stampEvent now event
        let ex := ExtractFramesToBase64 env video "Z0LADJoFAAABMA==" "aM48gA=="
        match ex.outcome with
        | .exited code => ⟨r, event, ex.effects, .exited code⟩
        | .panicked msg => ⟨r, event, ex.effects, .panicked msg⟩
        | .returned (.error err) =>
          ⟨r, event, ex.effects, .returned (some ("extract frames failed: " ++ err))⟩
        | .returned (.ok frames) =>
          let sent := sendFrames r.conn writeErr frames 0 event
          ⟨r, sent.1, ex.effects ++ sent.2.1, sent.2.2⟩

/-! ## Observations on effects and payloads -/

/-- Payloads handed to `WriteMessage` among the effects, in order. -/
def written : List Effect → List JsonText
  | [] => []
  | .writeMessage _ data _ :: rest => data :: written rest
  | _ :: rest => written rest

/-- Number of dials among the effects. -/
def dialCount : List Effect → Nat
  | [] => 0
  | .dial _ _ :: rest => dialCount rest + 1
  | _ :: rest => dialCount rest

/-- Number of receive loops started among the effects. -/
def readLoopCount : List Effect → Nat
  | [] => 0
  | .goReadWsMsg :: rest => readLoopCount rest + 1
  | _ :: rest => readLoopCount rest

/-- The `client_timestamp` a payload carries, if it carries one. -/
def JsonText.clientTimestamp (p : JsonText) : Option Int :=
  (p.member "client_timestamp").bind JValue.asInt

/-- A session with every field at its zero value. -/
def Session.zero : Session :=
  { ID := "", Object := "", Model := "", Modalities := [], Instructions := "", Voice := "",
    InputAudioFormat := "", OutputAudioFormat := "", InputAudioTranscription := none,
    TurnDetection := none, Tools := [], ToolChoice := "", Temperature := .zero,
    MaxResponseOutputTokens := none, InputAudioNoiseReduction := none, BetaFields := none,
    FlowBackend := none, TTSBackend := none }

/-- An operating system on which every step of frame extraction succeeds: the temporary
directory is `dir`, the decoder exits with status 0, the glob lists `listed`, and
`content` gives the bytes of each file. -/
def ExtractEnv.succeeding (dir : String) (listed : List String)
    (content : String → List UInt8) : ExtractEnv :=
  { mkdirTemp := .ok dir, writeFile := fun _ _ => none, runCommand := fun _ => none,
    glob := fun _ => .ok listed, readFile := fun path => .ok (content path) }

/-- The event with its `VideoFrame` replaced by `frame`. -/
def Event.withFrame (e : Event) (frame : List UInt8) : Event :=
  { e with VideoFrame := some frame }

/-- The inner loop of `sortFiles` seen from the list: with `x` at the position `i` and
`rest` the elements after it, the element left at position `i` and the elements left
after it. -/
def bubble : String → List String → String × List String
  | x, [] => (x, [])
  | x, y :: ys =>
    if strLt y x then ((bubble y ys).1, x :: (bubble y ys).2)
    else ((bubble x ys).1, y :: (bubble x ys).2)

/-! ## Names of the extracted frames -/

/-- Decimal digits of `n`, most significant first; `fuel` bounds their number. -/
def decimalDigits : Nat → Nat → List Char
  | 0, _ => []
  | fuel + 1, n =>
    if n < 10 then [Char.ofNat (48 + n)]
    else decimalDigits fuel (n / 10) ++ [Char.ofNat (48 + n % 10)]

/-- The conversion `%04d` of a counter: its decimal digits, padded with zeros on the left to
a width of at least four. -/
def pad4 (n : Nat) : String :=
  String.mk (List.replicate (4 - (decimalDigits 20 n).length) '0' ++ decimalDigits 20 n)

/-- Path of the image with counter `k` that the decoder writes for the pattern
`frame_%04d.jpg` in the directory `dir`. -/
def frameName (dir : String) (k : Nat) : String :=
  pathJoin dir ("frame_" ++ pad4 k ++ ".jpg")

/-- Paths of the images with counters `1..n`, in increasing counter order. -/
def frameNames (dir : String) (n : Nat) : List String :=
  (List.range n).map fun k => frameName dir (k + 1)

/-! ## `ConcatWavBytes` -/

/-- What a `wav.Decoder` (go-audio) over the bytes of one input reports. -/
structure WavDecoder where
  /-- Result of `decoder.IsValidFile()`. -/
  IsValidFile : Bool
  /-- Result of `decoder.FullPCMBuffer()`. -/
  FullPCMBuffer : Except String IntBuffer
  /-- The field `decoder.BitDepth` after decoding. -/
  BitDepth : Int

/-- Answers of the decoding library, the encoding library and the operating system during
one call of `ConcatWavBytes`. -/
structure ConcatEnv where
  /-- The decoder `wav.NewDecoder(bytes.NewReader(wavData))`. -/
  decoder : List UInt8 → WavDecoder
  /-- Result of `os.CreateTemp("", "output-*.wav")`: the path of the new file. -/
  createTemp : Except String String
  /-- Error of `encoder.Write` for the buffer with the given index, if any. -/
  write : Nat → Option String
  /-- Error of `encoder.Close()`, if any. -/
  close : Option String
  /-- Error of `io.ReadAll(tempFile)`, if any. -/
  readAll : Option String
  /-- Content of the file left by an encoder created with the given sample rate, bit depth
  and channel count after the given buffers were written and it was closed. -/
  encoded : Int → Int → Int → List IntBuffer → List UInt8

/-- State of the first loop of `ConcatWavBytes`: `combinedFrames`, `params`, `bitDepth`. -/
structure ConcatState where
  combinedFrames : List IntBuffer
  params : Option AudioFormat
  bitDepth : Int

/-- Error text of `ConcatWavBytes` for inputs whose parameters differ. -/
def paramsMismatch : String := "所有 WAV 文件的参数必须相同"

/-- The loop `for _, wavData := range wavBytes` of `ConcatWavBytes`. -/
def decodeAll (decoder : List UInt8 → WavDecoder) :
    List (List UInt8) → ConcatState → Except String ConcatState
  | [], st => .ok st
  | wavData :: rest, st =>
    if !(decoder wavData).IsValidFile then .error "invalid WAV file"
    else
      match (decoder wavData).FullPCMBuffer with
      | .error err => .error err
      | .ok buf =>
        match st.params with
        | none =>
          decodeAll decoder rest
            { combinedFrames := st.combinedFrames ++ [buf], params := some buf.Format,
              bitDepth := (decoder wavData).BitDepth }
        | some params =>
          if params.SampleRate ≠ buf.Format.SampleRate
              ∨ params.NumChannels ≠ buf.Format.NumChannels then
            .error paramsMismatch
          else
            decodeAll decoder rest
              { combinedFrames := st.combinedFrames ++ [buf], params := some params,
                bitDepth := (decoder wavData).BitDepth }

/-- The loop `for _, buffer := range combinedFrames` of `ConcatWavBytes`, from the buffer
with index `index` on: the writes made and the first error, if any. -/
def writeAll (write : Nat → Option String) :
    List IntBuffer → Nat → List Effect × Option String
  | [], _ => ([], none)
  | buffer :: rest, index =>
    match write index with
    | some err => ([.encoderWrite buffer], some err)
    | none => (.encoderWrite buffer :: (writeAll write rest (index + 1)).1,
        (writeAll write rest (index + 1)).2)

/-- Result of a call of `ConcatWavBytes`. -/
structure ConcatStep where
  effects : List Effect
  result : Except String (List UInt8)

/-- Embedding of `ConcatWavBytes` (tools.go). The deferred `tempFile.Close()` runs on every
return after the file exists. -/
def ConcatWavBytes (env : ConcatEnv) (wavBytes : List (List UInt8)) : ConcatStep :=
  match decodeAll env.decoder wavBytes
      { combinedFrames := [], params := none, bitDepth := 0 } with
  | .error err => ⟨[], .error err⟩
  | .ok st =>
    match st.params with
    | none => ⟨[], .error "拼接音频失败，params 为空"⟩
    | some params =>
      match env.createTemp with
      | .error err => ⟨[], .error err⟩
      | .ok tempFile =>
        let encoder : List Effect :=
          [.createTemp tempFile,
           .newEncoder tempFile params.SampleRate st.bitDepth params.NumChannels]
        match (writeAll env.write st.combinedFrames 0).2 with
        | some err =>
          ⟨encoder ++ (writeAll env.write st.combinedFrames 0).1 ++ [.closeFile tempFile],
            .error err⟩
        | none =>
          match env.close with
          | some err =>
            ⟨encoder ++ (writeAll env.write st.combinedFrames 0).1 ++
                [.encoderClose, .closeFile tempFile], .error err⟩
          | none =>
            match env.readAll with
            | some err =>
              ⟨encoder ++ (writeAll env.write st.combinedFrames 0).1 ++
                  [.encoderClose, .closeFile tempFile], .error err⟩
            | none =>
              ⟨encoder ++ (writeAll env.write st.combinedFrames 0).1 ++
                  [.encoderClose, .closeFile tempFile],
                .ok (env.encoded params.SampleRate st.bitDepth params.NumChannels
                  st.combinedFrames)⟩

/-- A decoder for containers in the 44-byte layout that `Pcm2Wav` writes: the file is valid
when it carries the tags `RIFF` and `WAVE`, format and bit depth are read from the header,
and the sample bytes are kept one per entry. -/
def headerDecoder (wavData : List UInt8) : WavDecoder :=
  { IsValidFile := decide (wavData.take 4 = strBytes "RIFF")
      && decide ((wavData.drop 8).take 4 = strBytes "WAVE"),
    FullPCMBuffer := .ok
      { Format := { NumChannels := readLE wavData 22 2, SampleRate := readLE wavData 24 4 },
        Data := (wavData.drop 44).map fun b => (b.toNat : Int),
        SourceBitDepth := readLE wavData 34 2 },
    BitDepth := readLE wavData 34 2 }

/-- Surroundings in which every step of `ConcatWavBytes` succeeds: inputs are read by
`headerDecoder`, the temporary file is `path`, and the encoder leaves the 44-byte layout
around the collected sample bytes. -/
def ConcatEnv.succeeding (path : String) : ConcatEnv :=
  { decoder := headerDecoder, createTemp := .ok path, write := fun _ => none, close := none,
    readAll := none,
    encoded := fun sampleRate bitDepth numChans buffers =>
      wavLayout ((buffers.flatMap fun b => b.Data).map fun v => UInt8.ofNat v.toNat)
        sampleRate.toNat numChans.toNat bitDepth.toNat }

/-- Bit depths of the encoders created among the effects, in order. -/
def encoderBitDepths : List Effect → List Int
  | [] => []
  | .newEncoder _ _ bitDepth _ :: rest => bitDepth :: encoderBitDepths rest
  | _ :: rest => encoderBitDepths rest

/-! ## The receive loop (`readWsMsg`) -/

/-- The constant `waitTimeout` (30 seconds), in nanoseconds. -/
def waitTimeout : Int := 30 * 1000000000

/-- What the surroundings answer during one iteration of the receive loop. -/
structure Inbound where
  /-- The clock `time.Now()` at the top of the iteration, in nanoseconds. -/
  now : Int
  /-- Result of `r.conn.ReadMessage()`: the message, or the read error. -/
  read : Except String (List UInt8)
  /-- Error of `r.conn.Close()` should the iteration disconnect, if any. -/
  closeErr : Option String

/-- How a run of the receive loop stands: it has returned, it waits for the next answer of
the surroundings (those given are used up), or it has panicked. -/
inductive LoopEnd where
  | returned
  | waiting
  | panicked (msg : String)
deriving DecidableEq

/-- The loop `for r.IsConnected()` of `readWsMsg`, one element of the script per
iteration; `unmarshal` is `json.Unmarshal` into a fresh `Event` and `deadline` the absolute
deadline fixed before the loop. Returns the client, the operations made and how the loop
stands. -/
def readLoop (unmarshal : List UInt8 → Except String Event) (deadline : Int) :
    List Inbound → realtimeClient → realtimeClient × List Effect × LoopEnd
  | [], r => if r.isConnected then (r, [], .waiting) else (r, [], .returned)
  | inbound :: rest, r =>
    if !r.isConnected then (r, [], .returned)
    else if inbound.now > deadline then (r, [], .returned)
    else
      match r.conn with
      | none => (r, [], .panicked "nil pointer dereference")
      | some conn =>
        match inbound.read with
        | .error _ => (r, [.setReadDeadline conn, .readMessage conn], .returned)
        | .ok message =>
          match r.onReceived with
          | none =>
            ((readLoop unmarshal deadline rest r).1,
              .setReadDeadline conn :: .readMessage conn ::
                (readLoop unmarshal deadline rest r).2.1,
              (readLoop unmarshal deadline rest r).2.2)
          | some onReceived =>
            match unmarshal message with
            | .error _ =>
              ((Disconnect inbound.closeErr r).client,
                .setReadDeadline conn :: .readMessage conn ::
                  (Disconnect inbound.closeErr r).effects,
                .returned)
            | .ok event =>
              match onReceived event with
              | some _ =>
                ((Disconnect inbound.closeErr r).client,
                  .setReadDeadline conn :: .readMessage conn :: .onReceived event ::
                    (Disconnect inbound.closeErr r).effects,
                  .returned)
              | none =>
                ((readLoop unmarshal deadline rest r).1,
                  .setReadDeadline conn :: .readMessage conn :: .onReceived event ::
                    (readLoop unmarshal deadline rest r).2.1,
                  (readLoop unmarshal deadline rest r).2.2)

/-- Result of a run of `readWsMsg`. -/
structure LoopRun where
  client : realtimeClient
  effects : List Effect
  status : LoopEnd

/-- Embedding of `realtimeClient.readWsMsg`, started at time `start`: the loop with the
deadline `start + waitTimeout`, then the deferred `r.wg.Done()` once the loop returns. -/
def readWsMsg (unmarshal : List UInt8 → Except String Event) (start : Int)
    (script : List Inbound) (r : realtimeClient) : LoopRun :=
  match (readLoop unmarshal (start + waitTimeout) script r).2.2 with
  | .returned =>
    match (readLoop unmarshal (start + waitTimeout) script r).1.wg with
    | none =>
      ⟨(readLoop unmarshal (start + waitTimeout) script r).1,
        (readLoop unmarshal (start + waitTimeout) script r).2.1,
        .panicked "nil pointer dereference"⟩
    | some 0 =>
      ⟨(readLoop unmarshal (start + waitTimeout) script r).1,
        (readLoop unmarshal (start + waitTimeout) script r).2.1,
        .panicked "sync: negative WaitGroup counter"⟩
    | some (n + 1) =>
      ⟨{ (readLoop unmarshal (start + waitTimeout) script r).1 with wg := some n },
        (readLoop unmarshal (start + waitTimeout) script r).2.1 ++ [.wgDone], .returned⟩
  | status =>
    ⟨(readLoop unmarshal (start + waitTimeout) script r).1,
      (readLoop unmarshal (start + waitTimeout) script r).2.1, status⟩

/-- Number of calls of `ReadMessage` among the effects. -/
def readCount : List Effect → Nat
  | [] => 0
  | .readMessage _ :: rest => readCount rest + 1
  | _ :: rest => readCount rest

/-- Keys of the object a JSON text holds, in order. -/
def JsonText.keys : JsonText → List String
  | .empty => []
  | .json v => v.keys

/-- The JSON keys of the fields of `Event`, in the order of the struct. -/
def eventKeys : List String :=
  ["event_id", "type", "session", "audio", "response", "item_id", "previous_item_id",
   "response_id", "output_index", "content_index", "delta", "item", "client_timestamp",
   "text", "transcript", "name", "call_id", "arguments", "video_frame", "instructions",
   "error", "conversation", "part", "audio_start_ms", "audio_end_ms", "rate_limits"]

/-! ## Theorems -/

theorem wrapInt64_of_range (x : Int) (h0 : 0 ≤ x) (h1 : x < 2 ^ 63) : wrapInt64 x = x := by
  unfold wrapInt64
  have : (x + 2 ^ 63) % 2 ^ 64 = x + 2 ^ 63 := Int.emod_eq_of_lt (by omega) (by omega)
  omega

theorem toUint32_natCast (n : Nat) (h : n < 2 ^ 32) : toUint32 (n : Int) = n := by
  unfold toUint32
  have : ((n : Int) % 2 ^ 32) = (n : Int) := Int.emod_eq_of_lt (by omega) (by exact_mod_cast h)
  rw [this]; simp

theorem toUint16_natCast (n : Nat) (h : n < 2 ^ 16) : toUint16 (n : Int) = n := by
  unfold toUint16
  have : ((n : Int) % 2 ^ 16) = (n : Int) := Int.emod_eq_of_lt (by omega) (by exact_mod_cast h)
  rw [this]; simp

theorem PutUint32Bytes_eq (v : Nat) : PutUint32Bytes v = u32le v := by
  simp [PutUint32Bytes, u32le, toByte, Nat.shiftRight_eq_div_pow]

theorem PutUint16Bytes_eq (v : Nat) : PutUint16Bytes v = u16le v := by
  simp [PutUint16Bytes, u16le, toByte, Nat.shiftRight_eq_div_pow]

theorem overwrite_zero_full (src dst : List UInt8) (h : src.length = dst.length) :
    overwrite dst 0 src = src := by
  induction dst generalizing src with
  | nil => cases src with
    | nil => rfl
    | cons s ss => simp at h
  | cons d ds ih => cases src with
    | nil => simp at h
    | cons s ss =>
      simp only [overwrite]
      rw [ih ss (by simpa using h)]

theorem intMul_natCast (a b : Nat) (h : a * b < 2 ^ 63) :
    intMul (a : Int) (b : Int) = ((a * b : Nat) : Int) := by
  unfold intMul
  rw [wrapInt64_of_range]
  · push_cast; rfl
  · positivity
  · exact_mod_cast h

theorem intDiv_natCast (a b : Nat) (h : a < 2 ^ 63) :
    intDiv (a : Int) (b : Int) = ((a / b : Nat) : Int) := by
  unfold intDiv
  have e : Int.tdiv (a : Int) (b : Int) = ((a / b : Nat) : Int) := by
    rw [Int.tdiv_eq_ediv (by positivity) (by positivity)]; simp
  rw [e, wrapInt64_of_range]
  · positivity
  · have : a / b ≤ a := Nat.div_le_self a b
    have : a / b < 2 ^ 63 := lt_of_le_of_lt this h
    exact_mod_cast this

theorem overwrite_cons_succ (d : UInt8) (ds : List UInt8) (k : Nat) (src : List UInt8) :
    overwrite (d :: ds) (k + 1) src = d :: overwrite ds k src := rfl

theorem overwrite_cons_zero (d s : UInt8) (ds ss : List UInt8) :
    overwrite (d :: ds) 0 (s :: ss) = s :: overwrite ds 0 ss := rfl

theorem overwrite_nil_src (ds : List UInt8) : overwrite ds 0 [] = ds := by
  cases ds <;> rfl

theorem strBytes_tags : strBytes "RIFF" = [82, 73, 70, 70] ∧ strBytes "WAVE" = [87, 65, 86, 69]
    ∧ strBytes "fmt " = [102, 109, 116, 32] ∧ strBytes "data" = [100, 97, 116, 97] := by
  decide

theorem header_eval (rest samples : List UInt8) (a b c d e f g : Nat) :
    copyFrom
        (PutUint32
          (copySlice
            (PutUint16
              (PutUint16
                (PutUint32
                  (PutUint32
                    (PutUint16
                      (PutUint16
                        (PutUint32
                          (copySlice
                            (copySlice
                              (PutUint32
                                (copySlice (List.replicate 44 0 ++ rest) 0 4 (strBytes "RIFF")) 4 a)
                              8 12 (strBytes "WAVE"))
                            12 16 (strBytes "fmt "))
                          16 16)
                        20 1)
                      22 b)
                    24 c)
                  28 d)
                32 e)
              34 f)
            36 40 (strBytes "data"))
          40 g)
        44 samples
      = strBytes "RIFF" ++ PutUint32Bytes a ++ strBytes "WAVE" ++ strBytes "fmt " ++
          PutUint32Bytes 16 ++ PutUint16Bytes 1 ++ PutUint16Bytes b ++ PutUint32Bytes c ++
          PutUint32Bytes d ++ PutUint16Bytes e ++ PutUint16Bytes f ++ strBytes "data" ++
          PutUint32Bytes g ++ overwrite rest 0 samples := by
  obtain ⟨h1, h2, h3, h4⟩ := strBytes_tags
  rw [h1, h2, h3, h4]
  simp only [List.replicate_succ, List.replicate_zero, copySlice, copyFrom, PutUint32, PutUint16, PutUint32Bytes, PutUint16Bytes,
    List.cons_append, List.nil_append, overwrite_cons_succ, overwrite_cons_zero,
    overwrite_nil_src, Nat.sub_zero, Nat.reduceSub, List.take_succ_cons, List.take_zero]

theorem Pcm2Wav_eq (samples : List UInt8) (sampleRate channels bitDepth : Nat)
    (hch : channels < 2 ^ 16) (hbd : bitDepth < 2 ^ 16)
    (hba : channels * bitDepth / 8 < 2 ^ 16)
    (hsr : sampleRate < 2 ^ 32)
    (hbr : sampleRate * channels * bitDepth / 8 < 2 ^ 32)
    (hlen : samples.length + 36 < 2 ^ 32) :
    Pcm2Wav samples sampleRate channels bitDepth
      = .ok (wavLayout samples sampleRate channels bitDepth) := by
  have hsc : sampleRate * channels < 2 ^ 48 := by
    calc sampleRate * channels < 2 ^ 32 * 2 ^ 16 := by
          apply Nat.mul_lt_mul'' hsr hch
      _ = 2 ^ 48 := by norm_num
  have hscb : sampleRate * channels * bitDepth < 2 ^ 63 := by omega
  have hcb : channels * bitDepth < 2 ^ 63 := by omega
  have hfs : intAdd (samples.length : Int) 44 = ((samples.length + 44 : Nat) : Int) := by
    unfold intAdd
    rw [wrapInt64_of_range] <;> push_cast <;> omega
  have hfs8 : intSub ((samples.length + 44 : Nat) : Int) 8 = ((samples.length + 36 : Nat) : Int) := by
    unfold intSub
    rw [wrapInt64_of_range] <;> push_cast <;> omega
  unfold Pcm2Wav
  simp only [hfs, hfs8, Int.toNat_ofNat]
  rw [intMul_natCast _ _ (by omega), intMul_natCast _ _ hscb, intMul_natCast _ _ hcb,
    show (8 : Int) = ((8 : Nat) : Int) from rfl,
    intDiv_natCast _ _ hscb, intDiv_natCast _ _ hcb,
    toUint32_natCast _ hlen, toUint32_natCast _ hbr, toUint32_natCast _ hsr,
    toUint32_natCast _ (by omega : samples.length < 2 ^ 32),
    toUint16_natCast _ hch, toUint16_natCast _ hbd, toUint16_natCast _ hba]
  have hrep : List.replicate (samples.length + 44) (0 : UInt8)
      = List.replicate 44 0 ++ List.replicate samples.length 0 := by
    rw [Nat.add_comm, List.replicate_add]
  rw [hrep, header_eval, overwrite_zero_full _ _ (by simp)]
  simp only [PutUint32Bytes_eq, PutUint16Bytes_eq, wavLayout]

theorem toNat_ofNat_byte (n : Nat) : (UInt8.ofNat n).toNat = n % 256 := rfl

theorem wavLayout_length (samples : List UInt8) (sampleRate channels bitDepth : Nat) :
    (wavLayout samples sampleRate channels bitDepth).length = samples.length + 44 := by
  obtain ⟨h1, h2, h3, h4⟩ := strBytes_tags
  simp only [wavLayout, h1, h2, h3, h4, u32le, u16le, List.length_append, List.length_cons,
    List.length_nil]
  omega

theorem wavLayout_fields (samples : List UInt8) (sampleRate channels bitDepth : Nat)
    (hch : channels < 2 ^ 16) (hbd : bitDepth < 2 ^ 16)
    (hba : channels * bitDepth / 8 < 2 ^ 16)
    (hsr : sampleRate < 2 ^ 32)
    (hbr : sampleRate * channels * bitDepth / 8 < 2 ^ 32)
    (hlen : samples.length + 36 < 2 ^ 32) :
    readLE (wavLayout samples sampleRate channels bitDepth) 4 4 = samples.length + 36
    ∧ readLE (wavLayout samples sampleRate channels bitDepth) 16 4 = 16
    ∧ readLE (wavLayout samples sampleRate channels bitDepth) 20 2 = 1
    ∧ readLE (wavLayout samples sampleRate channels bitDepth) 22 2 = channels
    ∧ readLE (wavLayout samples sampleRate channels bitDepth) 24 4 = sampleRate
    ∧ readLE (wavLayout samples sampleRate channels bitDepth) 28 4
        = sampleRate * channels * bitDepth / 8
    ∧ readLE (wavLayout samples sampleRate channels bitDepth) 32 2 = channels * bitDepth / 8
    ∧ readLE (wavLayout samples sampleRate channels bitDepth) 34 2 = bitDepth
    ∧ readLE (wavLayout samples sampleRate channels bitDepth) 40 4 = samples.length := by
  obtain ⟨h1, h2, h3, h4⟩ := strBytes_tags
  simp only [wavLayout]
  generalize sampleRate * channels * bitDepth / 8 = br at hbr ⊢
  generalize channels * bitDepth / 8 = ba at hba ⊢
  simp only [h1, h2, h3, h4, u32le, u16le, List.cons_append, List.nil_append]
  simp only [readLE, List.drop_succ_cons, List.drop_zero, List.take_succ_cons, List.take_zero]
  simp only [leValue]
  simp only [toNat_ofNat_byte]
  refine ⟨?_, ?_, ?_, ?_, ?_, ?_, ?_, ?_, ?_⟩ <;> first | trivial | omega

/-- C1: for parameters that fit their header fields, `Pcm2Wav` returns no error and exactly
the 44-byte header `RIFF, u32le(len+36), WAVE, fmt , u32le 16, u16le 1, u16le channels,
u32le sampleRate, u32le byteRate, u16le blockAlign, u16le bitDepth, data, u32le len` followed
by the samples unchanged; the result has length `len + 44`, every header field read back as
a little-endian number has the stated value, and for (16000, 1, 16) the byte-rate field
is 32000. -/
theorem Pcm2Wav_layout (samples : List UInt8) (sampleRate channels bitDepth : Nat)
    (hch : channels < 2 ^ 16) (hbd : bitDepth < 2 ^ 16)
    (hba : channels * bitDepth / 8 < 2 ^ 16)
    (hsr : sampleRate < 2 ^ 32)
    (hbr : sampleRate * channels * bitDepth / 8 < 2 ^ 32)
    (hlen : samples.length + 36 < 2 ^ 32) :
    ∃ out : List UInt8,
      Pcm2Wav samples (sampleRate : Int) (channels : Int) (bitDepth : Int) = .ok out
      ∧ out = strBytes "RIFF" ++ u32le (samples.length + 36) ++ strBytes "WAVE" ++
          strBytes "fmt " ++ u32le 16 ++ u16le 1 ++ u16le channels ++ u32le sampleRate ++
          u32le (sampleRate * channels * bitDepth / 8) ++ u16le (channels * bitDepth / 8) ++
          u16le bitDepth ++ strBytes "data" ++ u32le samples.length ++ samples
      ∧ out.length = samples.length + 44
      ∧ out.drop 44 = samples
      ∧ readLE out 4 4 = samples.length + 36
      ∧ readLE out 16 4 = 16
      ∧ readLE out 20 2 = 1
      ∧ readLE out 22 2 = channels
      ∧ readLE out 24 4 = sampleRate
      ∧ readLE out 28 4 = sampleRate * channels * bitDepth / 8
      ∧ readLE out 32 2 = channels * bitDepth / 8
      ∧ readLE out 34 2 = bitDepth
      ∧ readLE out 40 4 = samples.length
      ∧ (sampleRate = 16000 → channels = 1 → bitDepth = 16 → readLE out 28 4 = 32000) := by
  obtain ⟨f1, f2, f3, f4, f5, f6, f7, f8, f9⟩ :=
    wavLayout_fields samples sampleRate channels bitDepth hch hbd hba hsr hbr hlen
  refine ⟨wavLayout samples sampleRate channels bitDepth,
    Pcm2Wav_eq samples sampleRate channels bitDepth hch hbd hba hsr hbr hlen, rfl,
    wavLayout_length samples sampleRate channels bitDepth, ?_,
    f1, f2, f3, f4, f5, f6, f7, f8, f9, ?_⟩
  · obtain ⟨h1, h2, h3, h4⟩ := strBytes_tags
    simp only [wavLayout, h1, h2, h3, h4, u32le, u16le, List.cons_append, List.nil_append,
      List.drop_succ_cons, List.drop_zero]
  · intro a b c
    rw [f6, a, b, c]

/-- Instance of `Pcm2Wav_layout` at two sample bytes, 16 kHz, mono, 16 bit. -/
theorem Pcm2Wav_layout_witness :
    ∃ out : List UInt8,
      Pcm2Wav [1, 2] ((16000 : Nat) : Int) ((1 : Nat) : Int) ((16 : Nat) : Int) = .ok out
      ∧ out.length = 46 ∧ readLE out 28 4 = 32000 := by
  obtain ⟨out, h, _, hl, _, _, _, _, _, _, _, _, _, _, h16⟩ :=
    Pcm2Wav_layout [1, 2] 16000 1 16 (by decide) (by decide) (by decide) (by decide)
      (by decide) (by decide)
  exact ⟨out, h, hl, h16 rfl rfl rfl⟩

/-- C2: when the two base64 arguments decode to the parameter sets `A` and `B`,
`InjectSPSPPS` returns exactly `00 00 00 01 ++ A ++ 00 00 00 01 ++ B ++ stream` for every
stream; the output begins with the two injected units in that order and its length is
`len(stream) + len(A) + len(B) + 8`. -/
theorem InjectSPSPPS_layout (stream A B : List UInt8) (b64SPS b64PPS : String)
    (hA : DecodeString b64SPS = .ok A) (hB : DecodeString b64PPS = .ok B) :
    ∃ out : List UInt8,
      InjectSPSPPS stream b64SPS b64PPS = .ok out
      ∧ out = [0x00, 0x00, 0x00, 0x01] ++ A ++ [0x00, 0x00, 0x00, 0x01] ++ B ++ stream
      ∧ ([0x00, 0x00, 0x00, 0x01] ++ A ++ [0x00, 0x00, 0x00, 0x01] ++ B) <+: out
      ∧ out.length = stream.length + A.length + B.length + 8 := by
  refine ⟨[0x00, 0x00, 0x00, 0x01] ++ A ++ [0x00, 0x00, 0x00, 0x01] ++ B ++ stream, ?_, rfl,
    List.prefix_append _ _, ?_⟩
  · simp only [InjectSPSPPS, hA, hB, List.nil_append]
  · simp only [List.length_append, List.length_cons, List.length_nil]
    omega

/-- Instance of `InjectSPSPPS_layout` at the two parameter-set strings the client passes. -/
theorem InjectSPSPPS_layout_witness :
    ∃ out : List UInt8,
      InjectSPSPPS [0x65, 0x88] "Z0LADJoFAAABMA==" "aM48gA==" = .ok out
      ∧ out = [0x00, 0x00, 0x00, 0x01] ++
            [0x67, 0x42, 0xC0, 0x0C, 0x9A, 0x05, 0x00, 0x00, 0x01, 0x30] ++
            [0x00, 0x00, 0x00, 0x01] ++ [0x68, 0xCE, 0x3C, 0x80] ++ [0x65, 0x88]
      ∧ ([0x00, 0x00, 0x00, 0x01] ++
            [0x67, 0x42, 0xC0, 0x0C, 0x9A, 0x05, 0x00, 0x00, 0x01, 0x30] ++
            [0x00, 0x00, 0x00, 0x01] ++ [0x68, 0xCE, 0x3C, 0x80]) <+: out
      ∧ out.length = [0x65, 0x88].length
            + [0x67, 0x42, 0xC0, 0x0C, 0x9A, 0x05, 0x00, 0x00, 0x01, 0x30].length
            + [0x68, 0xCE, 0x3C, 0x80].length + 8 :=
  InjectSPSPPS_layout [0x65, 0x88] [0x67, 0x42, 0xC0, 0x0C, 0x9A, 0x05, 0x00, 0x00, 0x01, 0x30]
    [0x68, 0xCE, 0x3C, 0x80] "Z0LADJoFAAABMA==" "aM48gA==" (by decide) (by decide)



/-- C3: in every client state whose connection state is Disconnected, `Send` returns the
error "not connected" for every event, performs no operation at all (so writes to no
socket) and leaves the client and the event unchanged; a fresh client is Disconnected, it
stays so after a failed `Connect`, and every state reached by `Disconnect` is
Disconnected. -/
theorem Send_not_connected (now : Int) (writeErr : Option String) (r : realtimeClient)
    (event : Event) (h : r.isConnected = false) :
    (Send now writeErr r event).outcome = .returned (some "not connected")
    ∧ (Send now writeErr r event).effects = []
    ∧ written (Send now writeErr r event).effects = []
    ∧ (Send now writeErr r event).client = r
    ∧ (Send now writeErr r event).event = event
    ∧ (∀ url apiKey onReceived, (NewRealtimeClient url apiKey onReceived).isConnected = false)
    ∧ (∀ err, (Connect (.error err) r).client.isConnected = false)
    ∧ (∀ closeErr (r' : realtimeClient), (Disconnect closeErr r').client.isConnected = false) := by
  refine ⟨?_, ?_, ?_, ?_, ?_, fun _ _ _ => rfl, ?_, ?_⟩
  · simp [Send, h]
  · simp [Send, h]
  · simp [Send, h, written]
  · simp [Send, h]
  · simp [Send, h]
  · intro err
    simp [Connect, h]
  · intro closeErr r'
    unfold Disconnect
    cases hc : r'.isConnected
    · simp [hc]
    · cases r'.conn <;> simp

/-- Instance of `Send_not_connected` at a fresh client. -/
theorem Send_not_connected_witness :
    (Send 1700000000000 none (NewRealtimeClient "wss://host/realtime" "key" none)
        (Event.ofType "response.create")).outcome = .returned (some "not connected")
    ∧ (Send 1700000000000 none (NewRealtimeClient "wss://host/realtime" "key" none)
        (Event.ofType "response.create")).effects = [] :=
  ⟨(Send_not_connected 1700000000000 none (NewRealtimeClient "wss://host/realtime" "key" none)
      (Event.ofType "response.create") rfl).1,
   (Send_not_connected 1700000000000 none (NewRealtimeClient "wss://host/realtime" "key" none)
      (Event.ofType "response.create") rfl).2.1⟩

/-- C4: on a client whose state is Connected, `Connect` returns success and does nothing:
no dial, the connection handle and the whole client unchanged, no receive loop started.
Hence two `Connect` calls in a row on a fresh client whose dial succeeds perform exactly one
dial and start exactly one receive loop. -/
theorem Connect_idempotent (dialResult : Except String Conn) (r : realtimeClient)
    (h : r.isConnected = true) :
    (Connect dialResult r).outcome = .returned none
    ∧ (Connect dialResult r).effects = []
    ∧ (Connect dialResult r).client = r
    ∧ (∀ (url apiKey : String) (onReceived : Option (Event → Option String)) (c : Conn)
        (second : Except String Conn),
        (Connect (.ok c) (NewRealtimeClient url apiKey onReceived)).outcome = .returned none
        ∧ (Connect second
            (Connect (.ok c) (NewRealtimeClient url apiKey onReceived)).client).outcome
            = .returned none
        ∧ dialCount ((Connect (.ok c) (NewRealtimeClient url apiKey onReceived)).effects ++
            (Connect second
              (Connect (.ok c) (NewRealtimeClient url apiKey onReceived)).client).effects) = 1
        ∧ readLoopCount ((Connect (.ok c) (NewRealtimeClient url apiKey onReceived)).effects ++
            (Connect second
              (Connect (.ok c) (NewRealtimeClient url apiKey onReceived)).client).effects) = 1
        ∧ (Connect second
            (Connect (.ok c) (NewRealtimeClient url apiKey onReceived)).client).client.conn
            = some c) := by
  refine ⟨?_, ?_, ?_, ?_⟩
  · simp [Connect, h]
  · simp [Connect, h]
  · simp [Connect, h]
  · intro url apiKey onReceived c second
    simp [Connect, NewRealtimeClient, dialCount, readLoopCount]

/-- Instance of `Connect_idempotent` at the client a first successful `Connect` leaves. -/
theorem Connect_idempotent_witness :
    (Connect (.ok ⟨2⟩)
        (Connect (.ok ⟨1⟩) (NewRealtimeClient "wss://host/realtime" "key" none)).client).effects
      = []
    ∧ (Connect (.ok ⟨2⟩)
        (Connect (.ok ⟨1⟩) (NewRealtimeClient "wss://host/realtime" "key" none)).client).client
      = (Connect (.ok ⟨1⟩) (NewRealtimeClient "wss://host/realtime" "key" none)).client :=
  ⟨(Connect_idempotent (.ok ⟨2⟩)
      (Connect (.ok ⟨1⟩) (NewRealtimeClient "wss://host/realtime" "key" none)).client rfl).2.1,
   (Connect_idempotent (.ok ⟨2⟩)
      (Connect (.ok ⟨1⟩) (NewRealtimeClient "wss://host/realtime" "key" none)).client rfl).2.2.1⟩

theorem members_cons_lookup (key k : String) (ov : Option JValue)
    (rest : List (String × Option JValue)) :
    (members ((k, ov) :: rest)).lookup key
      = if key = k then (match ov with
          | some v => some v
          | none => (members rest).lookup key)
        else (members rest).lookup key := by
  cases ov with
  | none => simp [members]
  | some v =>
    by_cases hk : key = k
    · subst hk; simp [members, List.lookup]
    · have : (key == k) = false := by simpa using hk
      simp [members, List.lookup, hk, this]

theorem member_client_timestamp (e : Event) (session response rateLimits : Option JValue) :
    (JValue.obj (members (eventFields e session response rateLimits))).member "client_timestamp"
      = omitInt e.ClientTimestamp := by
  simp only [JValue.member, eventFields, members_cons_lookup]
  simp only [String.reduceEq, if_false, if_true]
  cases omitInt e.ClientTimestamp <;> simp [members]

/-- The encoding of an event succeeds exactly when the encodings of its session, response
and rate limits do, and is then the object of its fields. -/
theorem marshalEvent_ok (e : Event) (v : JValue) (h : marshalEvent e = .ok v) :
    ∃ session response rateLimits,
      omitPtr marshalSession e.Session = .ok session
      ∧ omitPtr marshalResponse e.Response = .ok response
      ∧ omitListM marshalRateLimit e.RateLimits = .ok rateLimits
      ∧ v = .obj (members (eventFields e session response rateLimits)) := by
  unfold marshalEvent at h
  cases hs : omitPtr marshalSession e.Session with
  | error err => simp [hs] at h
  | ok session =>
    cases hr : omitPtr marshalResponse e.Response with
    | error err => simp [hs, hr] at h
    | ok response =>
      cases hl : omitListM marshalRateLimit e.RateLimits with
      | error err => simp [hs, hr, hl] at h
      | ok rateLimits =>
        simp only [hs, hr, hl, Except.ok.injEq] at h
        exact ⟨session, response, rateLimits, rfl, rfl, rfl, h.symm⟩

theorem ToJson_clientTimestamp (e : Event) (v : JValue) (h : marshalEvent e = .ok v) :
    e.ToJson.clientTimestamp = if e.ClientTimestamp = 0 then none else some e.ClientTimestamp := by
  obtain ⟨s, r, l, _, _, _, hv⟩ := marshalEvent_ok e v h
  simp only [Event.ToJson, h, JsonText.clientTimestamp, JsonText.member, hv,
    member_client_timestamp, omitInt]
  split <;> rfl

theorem marshalEvent_stamp (now : Int) (e : Event) (v : JValue) (h : marshalEvent e = .ok v) :
    ∃ w, marshalEvent (stampEvent now e) = .ok w := by
  obtain ⟨s, r, l, hs, hr, hl, _⟩ := marshalEvent_ok e v h
  unfold stampEvent
  split
  · exact ⟨.obj (members (eventFields { e with ClientTimestamp := now } s r l)), by
      simp only [marshalEvent, hs, hr, hl]⟩
  · exact ⟨v, h⟩

/-- C5, amended: on a connected client `Send` writes one payload, `ToJson` of the event
whose `ClientTimestamp` is `now` if it was `<= 0` and is unchanged otherwise, and the
caller's event has that timestamp afterwards. Whenever `json.Marshal` succeeds on the event,
the payload carries `client_timestamp = now` if the timestamp was `<= 0` and `now` is not
zero, and carries the original value if it was positive. -/
theorem Send_timestamp (now : Int) (writeErr : Option String) (r : realtimeClient) (c : Conn)
    (event : Event) (v : JValue)
    (hc : r.isConnected = true) (hconn : r.conn = some c) (hm : marshalEvent event = .ok v) :
    written (Send now writeErr r event).effects = [(stampEvent now event).ToJson]
    ∧ (Send now writeErr r event).event = stampEvent now event
    ∧ (event.ClientTimestamp ≤ 0 → now ≠ 0 →
        (written (Send now writeErr r event).effects).map JsonText.clientTimestamp = [some now]
        ∧ (Send now writeErr r event).event.ClientTimestamp = now)
    ∧ (0 < event.ClientTimestamp →
        (written (Send now writeErr r event).effects).map JsonText.clientTimestamp
          = [some event.ClientTimestamp]
        ∧ (Send now writeErr r event).event.ClientTimestamp = event.ClientTimestamp) := by
  have hw : written (Send now writeErr r event).effects = [(stampEvent now event).ToJson] := by
    simp [Send, hc, hconn, written]
  have he : (Send now writeErr r event).event = stampEvent now event := by
    simp [Send, hc, hconn]
  obtain ⟨w, hw'⟩ := marshalEvent_stamp now event v hm
  refine ⟨hw, he, ?_, ?_⟩
  · intro hle hnow
    have hs : (stampEvent now event).ClientTimestamp = now := by
      simp [stampEvent, hle]
    rw [hw, he]
    refine ⟨?_, hs⟩
    simp only [List.map, ToJson_clientTimestamp _ w hw', hs, if_neg hnow]
  · intro hpos
    have hs : stampEvent now event = event := by
      simp [stampEvent, not_le.mpr hpos]
    rw [hw, he, hs]
    refine ⟨?_, rfl⟩
    simp only [List.map, ToJson_clientTimestamp _ v hm, if_neg (ne_of_gt hpos)]

/-- Instance of `Send_timestamp` at an event without timestamp sent at a time after 1970. -/
theorem Send_timestamp_witness :
    (written (Send 1700000000000 none
        (Connect (.ok ⟨1⟩) (NewRealtimeClient "wss://host/realtime" "key" none)).client
        (Event.ofType "response.create")).effects).map JsonText.clientTimestamp
      = [some 1700000000000] :=
  ((Send_timestamp 1700000000000 none
      (Connect (.ok ⟨1⟩) (NewRealtimeClient "wss://host/realtime" "key" none)).client ⟨1⟩
      (Event.ofType "response.create")
      (.obj [("type", .str "response.create"), ("delta", .str "")]) rfl rfl rfl).2.2.1
    (by decide) (by decide)).1

/-- C5, counterexample: sent at time 0 on a connected client, an event whose timestamp is 0
goes out without any `client_timestamp` (the zero value is dropped by `omitempty`); and an
event whose session has a NaN temperature goes out as the empty string, whatever the
time. -/
theorem Send_timestamp_counterexample :
    (Event.ofType "response.create").ClientTimestamp ≤ 0
    ∧ (Connect (.ok ⟨1⟩) (NewRealtimeClient "wss://host/realtime" "key" none)).client.isConnected
        = true
    ∧ (written (Send 0 none
        (Connect (.ok ⟨1⟩) (NewRealtimeClient "wss://host/realtime" "key" none)).client
        (Event.ofType "response.create")).effects).map JsonText.clientTimestamp = [none]
    ∧ (written (Send 0 none
        (Connect (.ok ⟨1⟩) (NewRealtimeClient "wss://host/realtime" "key" none)).client
        (Event.ofType "response.create")).effects).map JsonText.clientTimestamp ≠ [some 0]
    ∧ (written (Send 1700000000000 none
        (Connect (.ok ⟨1⟩) (NewRealtimeClient "wss://host/realtime" "key" none)).client
        { Event.ofType "session.update" with
          Session := some { Session.zero with Temperature := .nonFinite } }).effects).map
          JsonText.clientTimestamp ≠ [some 1700000000000] := by
  refine ⟨by decide, rfl, by decide, by decide, by decide⟩

/-- C6, amended: for every event whose type is not `input_audio_buffer.append_video_frame`
or whose `VideoFrame` is `nil`, `SendFrameByVideo` returns a validation error at once,
whatever the connection state: no frame extraction, no socket write, no other operation,
client and event unchanged. -/
theorem SendFrameByVideo_validation (now : Int) (env : ExtractEnv)
    (writeErr : Nat → Option String) (r : realtimeClient) (event : Event)
    (h : event.Type_ ≠ RealtimeClientVideoAppend ∨ event.VideoFrame = none) :
    ((SendFrameByVideo now env writeErr r event).outcome
        = .returned (some "event type is not RealtimeClientVideoAppend")
      ∨ (SendFrameByVideo now env writeErr r event).outcome
        = .returned (some "event videoFrame is nil"))
    ∧ (SendFrameByVideo now env writeErr r event).effects = []
    ∧ (SendFrameByVideo now env writeErr r event).client = r
    ∧ (SendFrameByVideo now env writeErr r event).event = event := by
  unfold SendFrameByVideo
  by_cases ht : RealtimeClientVideoAppend = event.Type_
  · have hv : event.VideoFrame = none := by
      rcases h with h | h
      · exact absurd ht.symm h
      · exact h
    simp [ht, hv]
  · simp [ht]

/-- Instance of `SendFrameByVideo_validation` at an audio event on a connected client. -/
theorem SendFrameByVideo_validation_witness :
    (SendFrameByVideo 1700000000000 (ExtractEnv.succeeding "/tmp/video_process_1" [] fun _ => [])
        (fun _ => none)
        (Connect (.ok ⟨1⟩) (NewRealtimeClient "wss://host/realtime" "key" none)).client
        (Event.ofType "input_audio_buffer.append")).effects = [] :=
  (SendFrameByVideo_validation 1700000000000
    (ExtractEnv.succeeding "/tmp/video_process_1" [] fun _ => []) (fun _ => none)
    (Connect (.ok ⟨1⟩) (NewRealtimeClient "wss://host/realtime" "key" none)).client
    (Event.ofType "input_audio_buffer.append") (Or.inl (by decide))).2.1

/-- C6, counterexample: a video event whose buffer is non-nil but of length zero passes
validation. On a client that is not connected it gets the error "not connected", not a
validation error; on a connected client frame extraction runs (temporary directory, stream
file, decoder). -/
theorem SendFrameByVideo_validation_counterexample :
    ({ Event.ofType RealtimeClientVideoAppend with VideoFrame := some [] }).VideoFrame.map
        List.length = some 0
    ∧ (SendFrameByVideo 1700000000000
        (ExtractEnv.succeeding "/tmp/video_process_1" [] fun _ => []) (fun _ => none)
        (NewRealtimeClient "wss://host/realtime" "key" none)
        { Event.ofType RealtimeClientVideoAppend with VideoFrame := some [] }).outcome
      = .returned (some "not connected")
    ∧ (SendFrameByVideo 1700000000000
        (ExtractEnv.succeeding "/tmp/video_process_1" [] fun _ => []) (fun _ => none)
        (Connect (.ok ⟨1⟩) (NewRealtimeClient "wss://host/realtime" "key" none)).client
        { Event.ofType RealtimeClientVideoAppend with VideoFrame := some [] }).outcome
      = .returned none
    ∧ (SendFrameByVideo 1700000000000
        (ExtractEnv.succeeding "/tmp/video_process_1" [] fun _ => []) (fun _ => none)
        (Connect (.ok ⟨1⟩) (NewRealtimeClient "wss://host/realtime" "key" none)).client
        { Event.ofType RealtimeClientVideoAppend with VideoFrame := some [] }).effects
      = [.mkdirTemp "/tmp/video_process_1",
         .writeFile "/tmp/video_process_1/input.h264"
           [0, 0, 0, 1, 0x67, 0x42, 0xC0, 0x0C, 0x9A, 0x05, 0x00, 0x00, 0x01, 0x30,
            0, 0, 0, 1, 0x68, 0xCE, 0x3C, 0x80],
         .runCommand ["ffmpeg", "-f", "h264", "-i", "/tmp/video_process_1/input.h264",
           "-vf", "fps=2", "-qscale:v", "2", "-y", "/tmp/video_process_1/frame_%04d.jpg"],
         .removeAll "/tmp/video_process_1"] := by
  refine ⟨rfl, by decide, by decide, ?_⟩
  rfl

theorem written_append (a b : List Effect) : written (a ++ b) = written a ++ written b := by
  induction a with
  | nil => rfl
  | cons x xs ih => cases x <;> simp [written, ih]

theorem written_ExtractFramesToBase64 (env : ExtractEnv) (data : List UInt8)
    (spsB64 ppsB64 : String) :
    written (ExtractFramesToBase64 env data spsB64 ppsB64).effects = [] := by
  unfold ExtractFramesToBase64
  cases env.mkdirTemp with
  | error err => rfl
  | ok tempDir =>
    simp only
    cases InjectSPSPPS data spsB64 ppsB64 with
    | error err => rfl
    | ok fixedData =>
      simp only
      cases env.writeFile (pathJoin tempDir "input.h264") fixedData with
      | some err => rfl
      | none =>
        simp only
        cases env.runCommand
            (ffmpegArgs (pathJoin tempDir "input.h264") (pathJoin tempDir "frame_%04d.jpg")) with
        | some err => rfl
        | none =>
          simp only
          cases env.glob (pathJoin tempDir "frame_*.jpg") with
          | error err => rfl
          | ok listed => rfl

theorem sendFrames_ok (c : Conn) (writeErr : Nat → Option String) :
    ∀ (frames : List (List UInt8)) (index : Nat) (e : Event),
      (∀ i, i < frames.length → writeErr (index + i) = none) →
      sendFrames (some c) writeErr frames index e
        = (match frames.getLast? with
            | none => e
            | some f => e.withFrame f,
           frames.map (fun f => Effect.writeMessage c (e.withFrame f).ToJson none),
           .returned none) := by
  intro frames
  induction frames with
  | nil => intro index e _; rfl
  | cons f fs ih =>
    intro index e h
    have h0 : writeErr index = none := by simpa using h 0 (by simp)
    have hrest : ∀ i, i < fs.length → writeErr (index + 1 + i) = none := by
      intro i hi
      have := h (i + 1) (by simpa using hi)
      rwa [show index + 1 + i = index + (i + 1) by omega]
    have ih' := ih (index + 1) (e.withFrame f) hrest
    simp only [sendFrames, h0]
    rw [show ({ e with VideoFrame := some f } : Event) = e.withFrame f from rfl, ih']
    cases fs with
    | nil => rfl
    | cons g gs =>
      simp only [List.getLast?_cons_cons, List.map_cons]
      cases hl : (g :: gs).getLast? with
      | none => simp at hl
      | some l => rfl

theorem sendFrames_fail (c : Conn) (writeErr : Nat → Option String) (err : String) :
    ∀ (frames : List (List UInt8)) (k index : Nat) (e : Event) (f : List UInt8),
      frames[k]? = some f →
      (∀ i, i < k → writeErr (index + i) = none) →
      writeErr (index + k) = some err →
      sendFrames (some c) writeErr frames index e
        = (e.withFrame f,
           (frames.take k).map (fun g => Effect.writeMessage c (e.withFrame g).ToJson none)
             ++ [Effect.writeMessage c (e.withFrame f).ToJson (some err)],
           .returned (some err)) := by
  intro frames
  induction frames with
  | nil => intro k index e f hk; simp at hk
  | cons g gs ih =>
    intro k index e f hk hbefore hat
    cases k with
    | zero =>
      have hg : g = f := by simpa using hk
      subst hg
      have h0 : writeErr index = some err := by simpa using hat
      simp only [sendFrames, h0]
      rfl
    | succ k =>
      have h0 : writeErr index = none := by simpa using hbefore 0 (by omega)
      have hk' : gs[k]? = some f := by simpa using hk
      have hb' : ∀ i, i < k → writeErr (index + 1 + i) = none := by
        intro i hi
        have := hbefore (i + 1) (by omega)
        rwa [show index + 1 + i = index + (i + 1) by omega]
      have ha' : writeErr (index + 1 + k) = some err := by
        rwa [show index + 1 + k = index + (k + 1) by omega]
      have ih' := ih k (index + 1) (e.withFrame g) f hk' hb' ha'
      simp only [sendFrames, h0]
      rw [show ({ e with VideoFrame := some g } : Event) = e.withFrame g from rfl, ih']
      rfl

theorem SendFrameByVideo_loop (now : Int) (env : ExtractEnv) (writeErr : Nat → Option String)
    (r : realtimeClient) (event : Event) (video : List UInt8) (frames : List (List UInt8))
    (hc : r.isConnected = true)
    (ht : event.Type_ = RealtimeClientVideoAppend) (hv : event.VideoFrame = some video)
    (hx : (ExtractFramesToBase64 env video "Z0LADJoFAAABMA==" "aM48gA==").outcome
      = .returned (.ok frames)) :
    SendFrameByVideo now env writeErr r event
      = ⟨r, (sendFrames r.conn writeErr frames 0 (stampEvent now event)).1,
          (ExtractFramesToBase64 env video "Z0LADJoFAAABMA==" "aM48gA==").effects ++
            (sendFrames r.conn writeErr frames 0 (stampEvent now event)).2.1,
          (sendFrames r.conn writeErr frames 0 (stampEvent now event)).2.2⟩ := by
  unfold SendFrameByVideo
  simp only [ht, hv, hc, ne_eq, not_true_eq_false, if_false, Bool.not_true, Bool.false_eq_true]
  rw [hx]

/-- C7, amended: for a connected client and a valid video event, let `e` be the event after
its `ClientTimestamp` has been set to `now` if it was `<= 0`, and let frame extraction yield
`frames`. If every write succeeds, `SendFrameByVideo` returns nil and has written, after the
operations of the extraction and in order, exactly one message per frame, the i-th being the
serialization of `e` with its `video_frame` replaced by the i-th frame. If the write for
frame `k` is the first to fail, its error is returned and the writes made are those for
frames before `k`, in order, followed by the failed one; none is made for a later frame. -/
theorem SendFrameByVideo_frames (now : Int) (env : ExtractEnv)
    (writeErr : Nat → Option String) (r : realtimeClient) (c : Conn) (event : Event)
    (video : List UInt8) (frames : List (List UInt8))
    (hc : r.isConnected = true) (hconn : r.conn = some c)
    (ht : event.Type_ = RealtimeClientVideoAppend) (hv : event.VideoFrame = some video)
    (hx : (ExtractFramesToBase64 env video "Z0LADJoFAAABMA==" "aM48gA==").outcome
      = .returned (.ok frames)) :
    ((∀ i, i < frames.length → writeErr i = none) →
      (SendFrameByVideo now env writeErr r event).outcome = .returned none
      ∧ (SendFrameByVideo now env writeErr r event).effects
          = (ExtractFramesToBase64 env video "Z0LADJoFAAABMA==" "aM48gA==").effects ++
            frames.map (fun f =>
              Effect.writeMessage c ((stampEvent now event).withFrame f).ToJson none)
      ∧ written (SendFrameByVideo now env writeErr r event).effects
          = frames.map (fun f => ((stampEvent now event).withFrame f).ToJson)
      ∧ (written (SendFrameByVideo now env writeErr r event).effects).length = frames.length)
    ∧ (∀ (k : Nat) (f : List UInt8) (err : String),
        frames[k]? = some f → (∀ i, i < k → writeErr i = none) → writeErr k = some err →
        (SendFrameByVideo now env writeErr r event).outcome = .returned (some err)
        ∧ (SendFrameByVideo now env writeErr r event).effects
            = (ExtractFramesToBase64 env video "Z0LADJoFAAABMA==" "aM48gA==").effects ++
              ((frames.take k).map (fun g =>
                  Effect.writeMessage c ((stampEvent now event).withFrame g).ToJson none)
                ++ [Effect.writeMessage c ((stampEvent now event).withFrame f).ToJson
                      (some err)])
        ∧ written (SendFrameByVideo now env writeErr r event).effects
            = (frames.take k).map (fun g => ((stampEvent now event).withFrame g).ToJson)
              ++ [((stampEvent now event).withFrame f).ToJson]) := by
  have hmap : ∀ (l : List (List UInt8)) (e : Event) (o : Option String),
      written (l.map (fun f => Effect.writeMessage c (e.withFrame f).ToJson o))
        = l.map (fun f => (e.withFrame f).ToJson) := by
    intro l e o
    induction l with
    | nil => rfl
    | cons x xs ih => simp [written, ih]
  rw [SendFrameByVideo_loop now env writeErr r event video frames hc ht hv hx, hconn]
  constructor
  · intro hall
    have hs := sendFrames_ok c writeErr frames 0 (stampEvent now event)
      (by intro i hi; simpa using hall i hi)
    simp only [hs, written_append, written_ExtractFramesToBase64, List.nil_append, hmap,
      List.length_map, and_self]
  · intro k f err hk hbefore hat
    have hs := sendFrames_fail c writeErr err frames k 0 (stampEvent now event) f hk
      (by intro i hi; simpa using hbefore i hi) (by simpa using hat)
    simp only [hs, written_append, written_ExtractFramesToBase64, List.nil_append, hmap,
      written, and_self]

/-- Instance of `SendFrameByVideo_frames`: one frame extracted, the write succeeds. -/
theorem SendFrameByVideo_frames_witness :
    written (SendFrameByVideo 1700000000000
        (ExtractEnv.succeeding "/tmp/video_process_1" ["/tmp/video_process_1/frame_0001.jpg"]
          fun _ => [0xFF, 0xD8])
        (fun _ => none)
        (Connect (.ok ⟨1⟩) (NewRealtimeClient "wss://host/realtime" "key" none)).client
        { Event.ofType RealtimeClientVideoAppend with VideoFrame := some [1] }).effects
      = [[0xFF, 0xD8]].map (fun f =>
          ((stampEvent 1700000000000
            { Event.ofType RealtimeClientVideoAppend with VideoFrame := some [1] }).withFrame
              f).ToJson) :=
  ((SendFrameByVideo_frames 1700000000000
      (ExtractEnv.succeeding "/tmp/video_process_1" ["/tmp/video_process_1/frame_0001.jpg"]
        fun _ => [0xFF, 0xD8])
      (fun _ => none)
      (Connect (.ok ⟨1⟩) (NewRealtimeClient "wss://host/realtime" "key" none)).client ⟨1⟩
      { Event.ofType RealtimeClientVideoAppend with VideoFrame := some [1] } [1]
      [[0xFF, 0xD8]] rfl rfl rfl rfl (by decide)).1 (fun _ _ => rfl)).2.2.1

/-- C7, counterexample: a video event without timestamp is sent at time 1700000000000 on a
connected client, extraction yields one frame and the write succeeds. The message written
carries `client_timestamp = 1700000000000`; the serialization of the original event with its
`video_frame` replaced by the frame carries none, so it is not the message written. -/
theorem SendFrameByVideo_frames_counterexample :
    (ExtractFramesToBase64
        (ExtractEnv.succeeding "/tmp/video_process_1" ["/tmp/video_process_1/frame_0001.jpg"]
          fun _ => [0xFF, 0xD8])
        [1] "Z0LADJoFAAABMA==" "aM48gA==").outcome = .returned (.ok [[0xFF, 0xD8]])
    ∧ (written (SendFrameByVideo 1700000000000
        (ExtractEnv.succeeding "/tmp/video_process_1" ["/tmp/video_process_1/frame_0001.jpg"]
          fun _ => [0xFF, 0xD8])
        (fun _ => none)
        (Connect (.ok ⟨1⟩) (NewRealtimeClient "wss://host/realtime" "key" none)).client
        { Event.ofType RealtimeClientVideoAppend with VideoFrame := some [1] }).effects).map
          JsonText.clientTimestamp = [some 1700000000000]
    ∧ ([[0xFF, 0xD8]].map (fun f =>
          (({ Event.ofType RealtimeClientVideoAppend with VideoFrame := some [1] } :
            Event).withFrame f).ToJson)).map JsonText.clientTimestamp = [none]
    ∧ written (SendFrameByVideo 1700000000000
        (ExtractEnv.succeeding "/tmp/video_process_1" ["/tmp/video_process_1/frame_0001.jpg"]
          fun _ => [0xFF, 0xD8])
        (fun _ => none)
        (Connect (.ok ⟨1⟩) (NewRealtimeClient "wss://host/realtime" "key" none)).client
        { Event.ofType RealtimeClientVideoAppend with VideoFrame := some [1] }).effects
      ≠ [[0xFF, 0xD8]].map (fun f =>
          (({ Event.ofType RealtimeClientVideoAppend with VideoFrame := some [1] } :
            Event).withFrame f).ToJson) := by
  refine ⟨by decide, by decide, by decide, ?_⟩
  intro h
  have h2 := congrArg (List.map JsonText.clientTimestamp) h
  revert h2
  decide

theorem stampEvent_VideoFrame (now : Int) (e : Event) :
    (stampEvent now e).VideoFrame = e.VideoFrame := by
  unfold stampEvent
  split <;> rfl

theorem sendFrames_cons_written (c : Conn) (writeErr : Nat → Option String) (f : List UInt8)
    (fs : List (List UInt8)) (index : Nat) (e : Event) :
    written (sendFrames (some c) writeErr (f :: fs) index e).2.1 ≠ [] := by
  simp only [sendFrames]
  cases writeErr index <;> simp [written]

/-- C8, amended: `SendFrameByVideo` sends the caller's event itself, not a clone. On a
client whose handle is set whenever it is connected, the event carries its original buffer
after every call that attempted no write (validation error, not connected, extraction
failed, no frame); after a call in which every write succeeded it carries the last frame,
and after a failed write for frame `k` it carries frame `k`. -/
theorem SendFrameByVideo_event_buffer (now : Int) (env : ExtractEnv)
    (writeErr : Nat → Option String) (r : realtimeClient) (event : Event)
    (hwf : r.isConnected = true → r.conn ≠ none) :
    (written (SendFrameByVideo now env writeErr r event).effects = [] →
      (SendFrameByVideo now env writeErr r event).event.VideoFrame = event.VideoFrame)
    ∧ (∀ (video : List UInt8) (frames : List (List UInt8)),
        r.isConnected = true → event.Type_ = RealtimeClientVideoAppend →
        event.VideoFrame = some video →
        (ExtractFramesToBase64 env video "Z0LADJoFAAABMA==" "aM48gA==").outcome
          = .returned (.ok frames) →
        ((∀ i, i < frames.length → writeErr i = none) → frames ≠ [] →
          (SendFrameByVideo now env writeErr r event).event.VideoFrame = frames.getLast?)
        ∧ (∀ (k : Nat) (f : List UInt8) (err : String),
            frames[k]? = some f → (∀ i, i < k → writeErr i = none) → writeErr k = some err →
            (SendFrameByVideo now env writeErr r event).event.VideoFrame = some f)) := by
  constructor
  · intro hw
    unfold SendFrameByVideo at hw ⊢
    by_cases ht : RealtimeClientVideoAppend = event.Type_
    · cases hv : event.VideoFrame with
      | none => simp [ht, hv]
      | some video =>
        cases hc : r.isConnected with
        | false => simp [ht, hv, hc]
        | true =>
          obtain ⟨c, hconn⟩ := Option.ne_none_iff_exists'.mp (hwf hc)
          simp only [ht, hv, hc, ne_eq, not_true_eq_false, if_false, Bool.not_true,
            Bool.false_eq_true] at hw ⊢
          cases hx : (ExtractFramesToBase64 env video "Z0LADJoFAAABMA==" "aM48gA==").outcome with
          | exited code => simp only [hx, stampEvent_VideoFrame, hv]
          | panicked msg => simp only [hx, stampEvent_VideoFrame, hv]
          | returned res =>
            cases res with
            | error err => simp only [hx, stampEvent_VideoFrame, hv]
            | ok frames =>
              simp only [hx] at hw ⊢
              cases frames with
              | nil => simp only [sendFrames, stampEvent_VideoFrame, hv]
              | cons f fs =>
                rw [written_append, written_ExtractFramesToBase64, List.nil_append, hconn] at hw
                exact absurd hw (sendFrames_cons_written c writeErr f fs 0 _)
    · simp [ht]
  · intro video frames hc ht hv hx
    obtain ⟨c, hconn⟩ := Option.ne_none_iff_exists'.mp (hwf hc)
    rw [SendFrameByVideo_loop now env writeErr r event video frames hc ht hv hx, hconn]
    constructor
    · intro hall hne
      have hs := sendFrames_ok c writeErr frames 0 (stampEvent now event)
        (by intro i hi; simpa using hall i hi)
      simp only [hs]
      cases hl : frames.getLast? with
      | none => exact absurd (List.getLast?_eq_none_iff.mp hl) hne
      | some l => rfl
    · intro k f err hk hbefore hat
      have hs := sendFrames_fail c writeErr err frames k 0 (stampEvent now event) f hk
        (by intro i hi; simpa using hbefore i hi) (by simpa using hat)
      simp only [hs]
      rfl

/-- Instance of `SendFrameByVideo_event_buffer`: one frame extracted and sent. -/
theorem SendFrameByVideo_event_buffer_witness :
    (SendFrameByVideo 1700000000000
        (ExtractEnv.succeeding "/tmp/video_process_1" ["/tmp/video_process_1/frame_0001.jpg"]
          fun _ => [0xFF, 0xD8])
        (fun _ => none)
        (Connect (.ok ⟨1⟩) (NewRealtimeClient "wss://host/realtime" "key" none)).client
        { Event.ofType RealtimeClientVideoAppend with VideoFrame := some [1] }).event.VideoFrame
      = [[0xFF, 0xD8]].getLast? :=
  ((SendFrameByVideo_event_buffer 1700000000000
      (ExtractEnv.succeeding "/tmp/video_process_1" ["/tmp/video_process_1/frame_0001.jpg"]
        fun _ => [0xFF, 0xD8])
      (fun _ => none)
      (Connect (.ok ⟨1⟩) (NewRealtimeClient "wss://host/realtime" "key" none)).client
      { Event.ofType RealtimeClientVideoAppend with VideoFrame := some [1] }
      (fun _ => by decide)).2 [1] [[0xFF, 0xD8]] rfl rfl rfl (by decide)).1
    (fun _ _ => rfl) (by decide)

/-- C8, counterexample: the caller passes an event whose buffer is the one byte `01`;
extraction yields one frame `FF D8` and the write succeeds; after the call the caller's
event carries `FF D8`. -/
theorem SendFrameByVideo_event_buffer_counterexample :
    ({ Event.ofType RealtimeClientVideoAppend with VideoFrame := some [1] } :
        Event).VideoFrame = some [1]
    ∧ (SendFrameByVideo 1700000000000
        (ExtractEnv.succeeding "/tmp/video_process_1" ["/tmp/video_process_1/frame_0001.jpg"]
          fun _ => [0xFF, 0xD8])
        (fun _ => none)
        (Connect (.ok ⟨1⟩) (NewRealtimeClient "wss://host/realtime" "key" none)).client
        { Event.ofType RealtimeClientVideoAppend with VideoFrame := some [1] }).outcome
      = .returned none
    ∧ (SendFrameByVideo 1700000000000
        (ExtractEnv.succeeding "/tmp/video_process_1" ["/tmp/video_process_1/frame_0001.jpg"]
          fun _ => [0xFF, 0xD8])
        (fun _ => none)
        (Connect (.ok ⟨1⟩) (NewRealtimeClient "wss://host/realtime" "key" none)).client
        { Event.ofType RealtimeClientVideoAppend with VideoFrame := some [1] }).event.VideoFrame
      = some [0xFF, 0xD8]
    ∧ (SendFrameByVideo 1700000000000
        (ExtractEnv.succeeding "/tmp/video_process_1" ["/tmp/video_process_1/frame_0001.jpg"]
          fun _ => [0xFF, 0xD8])
        (fun _ => none)
        (Connect (.ok ⟨1⟩) (NewRealtimeClient "wss://host/realtime" "key" none)).client
        { Event.ofType RealtimeClientVideoAppend with VideoFrame := some [1] }).event.VideoFrame
      ≠ ({ Event.ofType RealtimeClientVideoAppend with VideoFrame := some [1] } :
          Event).VideoFrame := by
  refine ⟨rfl, by decide, by decide, by decide⟩

/-- C9, the code at the failing input: the SPS string `!` is not valid base64, so
`InjectSPSPPS` returns an error, on which `ExtractFramesToBase64` calls `log.Fatal`: the
process exits with status 1, nothing is returned to the caller and the temporary directory
is not removed. -/
theorem ExtractFramesToBase64_fatal :
    InjectSPSPPS [] "!" "aM48gA==" = .error "decode SPS failed: illegal base64 data"
    ∧ (ExtractFramesToBase64 (ExtractEnv.succeeding "/tmp/video_process_1" [] fun _ => [])
        [] "!" "aM48gA==").outcome = .exited 1
    ∧ (ExtractFramesToBase64 (ExtractEnv.succeeding "/tmp/video_process_1" [] fun _ => [])
        [] "!" "aM48gA==").effects = [.mkdirTemp "/tmp/video_process_1", .exit 1]
    ∧ ∀ res, (ExtractFramesToBase64 (ExtractEnv.succeeding "/tmp/video_process_1" []
        fun _ => []) [] "!" "aM48gA==").outcome ≠ .returned res := by
  refine ⟨by decide, by decide, rfl, ?_⟩
  intro res h
  have h1 : (ExtractFramesToBase64 (ExtractEnv.succeeding "/tmp/video_process_1" []
      fun _ => []) [] "!" "aM48gA==").outcome = .exited 1 := by decide
  rw [h1] at h
  cases h

/-- C10, amended: when the temporary directory and the stream file are written, the
external decoder exits successfully and no file matches the frame pattern,
`ExtractFramesToBase64` returns an empty frame list and no error; `SendFrameByVideo` on a
connected client with a valid video event then returns nil having written no message. -/
theorem ExtractFramesToBase64_no_output (env : ExtractEnv) (data fixedData : List UInt8)
    (spsB64 ppsB64 tempDir : String)
    (hdir : env.mkdirTemp = .ok tempDir)
    (hinj : InjectSPSPPS data spsB64 ppsB64 = .ok fixedData)
    (hwrite : env.writeFile (pathJoin tempDir "input.h264") fixedData = none)
    (hrun : env.runCommand
      (ffmpegArgs (pathJoin tempDir "input.h264") (pathJoin tempDir "frame_%04d.jpg")) = none)
    (hglob : env.glob (pathJoin tempDir "frame_*.jpg") = .ok []) :
    (ExtractFramesToBase64 env data spsB64 ppsB64).outcome = .returned (.ok [])
    ∧ (∀ (now : Int) (writeErr : Nat → Option String) (r : realtimeClient) (event : Event),
        r.isConnected = true → event.Type_ = RealtimeClientVideoAppend →
        event.VideoFrame = some data → spsB64 = "Z0LADJoFAAABMA==" → ppsB64 = "aM48gA==" →
        (SendFrameByVideo now env writeErr r event).outcome = .returned none
        ∧ written (SendFrameByVideo now env writeErr r event).effects = []) := by
  have hx : (ExtractFramesToBase64 env data spsB64 ppsB64).outcome = .returned (.ok []) := by
    simp only [ExtractFramesToBase64, hdir, hinj, hwrite, hrun, hglob]
    rfl
  refine ⟨hx, ?_⟩
  intro now writeErr r event hc ht hv hs hp
  subst hs hp
  rw [SendFrameByVideo_loop now env writeErr r event data [] hc ht hv hx]
  simp only [sendFrames, written_append, written_ExtractFramesToBase64, List.append_nil,
    and_self]

/-- Instance of `ExtractFramesToBase64_no_output`: every step succeeds and the glob lists
nothing. -/
theorem ExtractFramesToBase64_no_output_witness :
    (ExtractFramesToBase64 (ExtractEnv.succeeding "/tmp/video_process_1" [] fun _ => [])
        [1] "Z0LADJoFAAABMA==" "aM48gA==").outcome = .returned (.ok []) :=
  (ExtractFramesToBase64_no_output
    (ExtractEnv.succeeding "/tmp/video_process_1" [] fun _ => []) [1]
    [0, 0, 0, 1, 0x67, 0x42, 0xC0, 0x0C, 0x9A, 0x05, 0x00, 0x00, 0x01, 0x30,
     0, 0, 0, 1, 0x68, 0xCE, 0x3C, 0x80, 1]
    "Z0LADJoFAAABMA==" "aM48gA==" "/tmp/video_process_1" rfl (by decide) rfl rfl rfl).1

/-- C10, counterexample: the decoder exits with status 0 and no image file exists;
`ExtractFramesToBase64` returns an empty frame list, not an error, and `SendFrameByVideo`
reports success after writing no message. -/
theorem ExtractFramesToBase64_no_output_counterexample :
    (ExtractFramesToBase64 (ExtractEnv.succeeding "/tmp/video_process_1" [] fun _ => [])
        [1] "Z0LADJoFAAABMA==" "aM48gA==").outcome = .returned (.ok [])
    ∧ (∀ err, (ExtractFramesToBase64
        (ExtractEnv.succeeding "/tmp/video_process_1" [] fun _ => [])
        [1] "Z0LADJoFAAABMA==" "aM48gA==").outcome ≠ .returned (.error err))
    ∧ (SendFrameByVideo 1700000000000
        (ExtractEnv.succeeding "/tmp/video_process_1" [] fun _ => []) (fun _ => none)
        (Connect (.ok ⟨1⟩) (NewRealtimeClient "wss://host/realtime" "key" none)).client
        { Event.ofType RealtimeClientVideoAppend with VideoFrame := some [1] }).outcome
      = .returned none
    ∧ written (SendFrameByVideo 1700000000000
        (ExtractEnv.succeeding "/tmp/video_process_1" [] fun _ => []) (fun _ => none)
        (Connect (.ok ⟨1⟩) (NewRealtimeClient "wss://host/realtime" "key" none)).client
        { Event.ofType RealtimeClientVideoAppend with VideoFrame := some [1] }).effects
      = [] := by
  have h1 : (ExtractFramesToBase64 (ExtractEnv.succeeding "/tmp/video_process_1" []
      fun _ => []) [1] "Z0LADJoFAAABMA==" "aM48gA==").outcome = .returned (.ok []) := by
    decide
  refine ⟨h1, ?_, by decide, rfl⟩
  intro err h
  rw [h1] at h
  cases h

theorem charsLt_irrefl (a : List Char) : charsLt a a = false := by
  induction a with
  | nil => rfl
  | cons x xs ih => simp [charsLt, ih]

theorem charsLt_asymm : ∀ (a b : List Char), charsLt a b = true → charsLt b a = false := by
  intro a
  induction a with
  | nil => intro b _; cases b <;> rfl
  | cons x xs ih =>
    intro b h
    cases b with
    | nil => simp [charsLt] at h
    | cons y ys =>
      simp only [charsLt, Bool.or_eq_true, Bool.and_eq_true, decide_eq_true_eq] at h
      simp only [charsLt, Bool.or_eq_false_iff, Bool.and_eq_false_imp, decide_eq_false_iff_not,
        decide_eq_true_eq]
      rcases h with h | ⟨h1, h2⟩
      · exact ⟨by omega, fun h' => by omega⟩
      · exact ⟨by omega, fun _ => ih ys h2⟩

theorem charsLt_trans : ∀ (a b c : List Char),
    charsLt a b = true → charsLt b c = true → charsLt a c = true := by
  intro a
  induction a with
  | nil =>
    intro b c hab hbc
    cases c with
    | nil => cases b <;> simp [charsLt] at hbc
    | cons z zs => rfl
  | cons x xs ih =>
    intro b c hab hbc
    cases b with
    | nil => simp [charsLt] at hab
    | cons y ys =>
      cases c with
      | nil => simp [charsLt] at hbc
      | cons z zs =>
        simp only [charsLt, Bool.or_eq_true, Bool.and_eq_true, decide_eq_true_eq] at hab hbc ⊢
        rcases hab with h | ⟨h1, h2⟩
        · rcases hbc with h' | ⟨h1', _⟩
          · left; omega
          · left; omega
        · rcases hbc with h' | ⟨h1', h2'⟩
          · left; omega
          · right; exact ⟨by omega, ih ys zs h2 h2'⟩

theorem charsLt_total : ∀ (a b : List Char),
    charsLt a b = false → charsLt b a = false → a = b := by
  intro a
  induction a with
  | nil =>
    intro b h _
    cases b with
    | nil => rfl
    | cons y ys => simp [charsLt] at h
  | cons x xs ih =>
    intro b h h'
    cases b with
    | nil => simp [charsLt] at h'
    | cons y ys =>
      simp only [charsLt, Bool.or_eq_false_iff, Bool.and_eq_false_imp, decide_eq_false_iff_not,
        decide_eq_true_eq] at h h'
      have hxy : x.toNat = y.toNat := by omega
      have hc : x = y := Char.ext (UInt32.ext hxy)
      rw [hc, ih ys (h.2 hxy) (h'.2 hxy.symm)]

theorem strLt_irrefl (a : String) : strLt a a = false := charsLt_irrefl _

theorem strLt_asymm (a b : String) (h : strLt a b = true) : strLt b a = false :=
  charsLt_asymm _ _ h

theorem strLt_trans (a b c : String) (h1 : strLt a b = true) (h2 : strLt b c = true) :
    strLt a c = true := charsLt_trans _ _ _ h1 h2

theorem strLt_total (a b : String) (h1 : strLt a b = false) (h2 : strLt b a = false) :
    a = b := by
  exact String.ext (charsLt_total _ _ h1 h2)

/-- `a` stands before or with `b`: not `b < a`. -/
theorem strLe_trans (a b c : String) (h1 : strLt b a = false) (h2 : strLt c b = false) :
    strLt c a = false := by
  cases h : strLt c a with
  | false => rfl
  | true =>
    cases hab : strLt a b with
    | true =>
      have := strLt_trans c a b h hab
      rw [this] at h2; cases h2
    | false =>
      have e := strLt_total a b hab h1
      subst e
      rw [h] at h2; cases h2

theorem getElem?_append_cons (pre : List String) (x : String) (rest : List String) :
    (pre ++ x :: rest)[pre.length]? = some x := by
  induction pre with
  | nil => simp
  | cons p ps ih => simpa using ih

theorem set_append_cons (pre : List String) (x y : String) (rest : List String) :
    (pre ++ x :: rest).set pre.length y = pre ++ y :: rest := by
  induction pre with
  | nil => rfl
  | cons p ps ih => simp [List.set, ih]

theorem exchange_split (pre done todo : List String) (x y : String) :
    exchange (pre ++ x :: done ++ y :: todo) pre.length (pre.length + 1 + done.length)
      = if strLt y x then pre ++ y :: done ++ x :: todo else pre ++ x :: done ++ y :: todo := by
  have hi : (pre ++ x :: done ++ y :: todo)[pre.length]? = some x := by
    rw [List.append_assoc]
    exact getElem?_append_cons pre x (done ++ y :: todo)
  have hlen : (pre ++ x :: done).length = pre.length + 1 + done.length := by
    simp only [List.length_append, List.length_cons]; omega
  have hj : (pre ++ x :: done ++ y :: todo)[pre.length + 1 + done.length]? = some y := by
    rw [← hlen]
    have := getElem?_append_cons (pre ++ x :: done) y todo
    simpa only [List.append_assoc, List.cons_append] using this
  unfold exchange
  rw [hi, hj]
  simp only
  split
  · have h1 : (pre ++ x :: done ++ y :: todo).set pre.length y
        = pre ++ y :: done ++ y :: todo := by
      rw [List.append_assoc]
      have := set_append_cons pre x y (done ++ y :: todo)
      simpa only [List.append_assoc, List.cons_append] using this
    rw [h1, ← hlen]
    have h2 := set_append_cons (pre ++ y :: done) y x todo
    have hlen' : (pre ++ y :: done).length = (pre ++ x :: done).length := by
      simp only [List.length_append, List.length_cons]
    rw [hlen'] at h2
    simpa only [List.append_assoc, List.cons_append] using h2
  · rfl

theorem innerLoop_bubble (pre : List String) :
    ∀ (todo : List String) (x : String) (done : List String),
      (List.range' (pre.length + 1 + done.length) todo.length).foldl
          (fun fs j => exchange fs pre.length j) (pre ++ x :: done ++ todo)
        = pre ++ (bubble x todo).1 :: done ++ (bubble x todo).2 := by
  intro todo
  induction todo with
  | nil => intro x done; rfl
  | cons y ys ih =>
    intro x done
    rw [List.length_cons, List.range'_succ, List.foldl_cons, exchange_split]
    by_cases h : strLt y x = true
    · have e1 : pre ++ y :: done ++ x :: ys = pre ++ y :: (done ++ [x]) ++ ys := by simp
      have e2 : pre.length + 1 + done.length + 1 = pre.length + 1 + (done ++ [x]).length := by
        simp only [List.length_append, List.length_cons, List.length_nil]; omega
      rw [if_pos h, e1, e2, ih y (done ++ [x])]
      simp [bubble, h]
    · have e1 : pre ++ x :: done ++ y :: ys = pre ++ x :: (done ++ [y]) ++ ys := by simp
      have e2 : pre.length + 1 + done.length + 1 = pre.length + 1 + (done ++ [y]).length := by
        simp only [List.length_append, List.length_cons, List.length_nil]; omega
      rw [if_neg h, e1, e2, ih x (done ++ [y])]
      simp [bubble, h]

theorem bubble_perm : ∀ (xs : List String) (x : String),
    ((bubble x xs).1 :: (bubble x xs).2).Perm (x :: xs) := by
  intro xs
  induction xs with
  | nil => intro x; exact List.Perm.refl _
  | cons y ys ih =>
    intro x
    by_cases h : strLt y x = true
    · simp only [bubble, h, if_true]
      exact (List.Perm.swap x _ _).trans ((ih y).cons x)
    · simp only [bubble, h]
      exact ((List.Perm.swap y _ _).trans ((ih x).cons y)).trans (List.Perm.swap x y ys)

theorem bubble_le_head : ∀ (xs : List String) (x : String),
    strLt x (bubble x xs).1 = false := by
  intro xs
  induction xs with
  | nil => intro x; exact strLt_irrefl x
  | cons y ys ih =>
    intro x
    by_cases h : strLt y x = true
    · simp only [bubble, h, if_true]
      exact strLe_trans _ y x (ih y) (strLt_asymm y x h)
    · simp only [bubble, h]
      exact ih x

theorem bubble_min : ∀ (xs : List String) (x : String) (z : String),
    z ∈ (bubble x xs).2 → strLt z (bubble x xs).1 = false := by
  intro xs
  induction xs with
  | nil => intro x z hz; simp [bubble] at hz
  | cons y ys ih =>
    intro x z hz
    by_cases h : strLt y x = true
    · have hb : bubble x (y :: ys) = ((bubble y ys).1, x :: (bubble y ys).2) := by
        simp only [bubble, h, if_true]
      rw [hb] at hz ⊢
      rcases List.mem_cons.mp hz with hzx | hzr
      · rw [hzx]
        exact strLe_trans _ y x (bubble_le_head ys y) (strLt_asymm y x h)
      · exact ih y z hzr
    · have hb : bubble x (y :: ys) = ((bubble x ys).1, y :: (bubble x ys).2) := by
        simp only [bubble, h]
        rfl
      rw [hb] at hz ⊢
      rcases List.mem_cons.mp hz with hzy | hzr
      · rw [hzy]
        have hxy : strLt y x = false := by simpa using h
        exact strLe_trans _ x y (bubble_le_head ys x) hxy
      · exact ih x z hzr

theorem outerLoop_sorted (n : Nat) :
    ∀ (m : Nat) (pre rest : List String), rest.length = m → n = pre.length + m →
      ∃ out : List String,
        (List.range' pre.length m).foldl
            (fun fs i =>
              (List.range' (i + 1) (n - (i + 1))).foldl (fun fs j => exchange fs i j) fs)
            (pre ++ rest) = pre ++ out
        ∧ out.Perm rest
        ∧ out.Pairwise (fun a b => strLt b a = false) := by
  intro m
  induction m with
  | zero =>
    intro pre rest hlen _
    have : rest = [] := List.length_eq_zero.mp hlen
    subst this
    exact ⟨[], rfl, List.Perm.refl _, List.Pairwise.nil⟩
  | succ m ih =>
    intro pre rest hlen hn
    cases rest with
    | nil => simp at hlen
    | cons x xs =>
      have hxs : xs.length = m := by simpa using hlen
      have hcount : n - (pre.length + 1) = xs.length := by omega
      have hinner : (List.range' (pre.length + 1) xs.length).foldl
          (fun fs j => exchange fs pre.length j) (pre ++ x :: xs)
          = pre ++ (bubble x xs).1 :: (bubble x xs).2 := by
        simpa using innerLoop_bubble pre xs x []
      have hperm := bubble_perm xs x
      have hblen : (bubble x xs).2.length = m := by
        have := hperm.length_eq
        simp only [List.length_cons] at this
        omega
      obtain ⟨out, hout, hp, hs⟩ := ih (pre ++ [(bubble x xs).1]) (bubble x xs).2 hblen
        (by simp only [List.length_append, List.length_cons, List.length_nil]; omega)
      refine ⟨(bubble x xs).1 :: out, ?_, ?_, ?_⟩
      · rw [List.range'_succ, List.foldl_cons, hcount, hinner]
        have e : pre ++ (bubble x xs).1 :: (bubble x xs).2
            = (pre ++ [(bubble x xs).1]) ++ (bubble x xs).2 := by simp
        have e' : pre.length + 1 = (pre ++ [(bubble x xs).1]).length := by simp
        rw [e, e', hout]
        simp
      · exact (hp.cons _).trans hperm
      · refine List.Pairwise.cons ?_ hs
        intro z hz
        exact bubble_min xs x z (hp.mem_iff.mp hz)

theorem sortFiles_perm_pairwise (files : List String) :
    (sortFiles files).Perm files
    ∧ (sortFiles files).Pairwise (fun a b => strLt b a = false) := by
  obtain ⟨out, hout, hp, hs⟩ := outerLoop_sorted files.length files.length [] files rfl
    (by simp)
  have he : sortFiles files = out := by
    unfold sortFiles
    rw [List.range_eq_range']
    simpa using hout
  rw [he]
  exact ⟨hp, hs⟩

/-- C18: for every list of file names, the list `sortFiles` leaves is a permutation of its
input and stands in ascending lexical order: of two names, the earlier one is smaller in
the order `strLt` of the bytes or equal to the later one, and no later name is smaller than
an earlier one. -/
theorem sortFiles_sorted (files : List String) :
    (sortFiles files).Perm files
    ∧ (sortFiles files).Pairwise (fun a b => strLt a b = true ∨ a = b)
    ∧ (sortFiles files).Pairwise (fun a b => strLt b a = false) := by
  obtain ⟨hp, hs⟩ := sortFiles_perm_pairwise files
  refine ⟨hp, ?_, hs⟩
  refine hs.imp ?_
  intro a b hba
  cases hab : strLt a b with
  | true => exact Or.inl rfl
  | false => exact Or.inr (strLt_total a b hab hba)


theorem readImages_ok (content : String → List UInt8) (paths : List String) :
    readImages (fun path => .ok (content path)) paths = .ok (paths.map content) := by
  induction paths with
  | nil => rfl
  | cons p ps ih => simp only [readImages, ih, List.map_cons]

theorem ExtractFramesToBase64_succeeding (dir : String) (listed : List String)
    (content : String → List UInt8) (data : List UInt8) :
    (ExtractFramesToBase64 (ExtractEnv.succeeding dir listed content) data
        "Z0LADJoFAAABMA==" "aM48gA==").outcome
      = .returned (.ok ((sortFiles listed).map content)) := by
  have hA : DecodeString "Z0LADJoFAAABMA=="
      = .ok [0x67, 0x42, 0xC0, 0x0C, 0x9A, 0x05, 0x00, 0x00, 0x01, 0x30] := by decide
  have hB : DecodeString "aM48gA==" = .ok [0x68, 0xCE, 0x3C, 0x80] := by decide
  simp only [ExtractFramesToBase64, ExtractEnv.succeeding, InjectSPSPPS, hA, hB, readImages_ok]

theorem pairwise_getElem? (R : String → String → Prop) :
    ∀ (l : List String), l.Pairwise R →
      ∀ (i j : Nat) (a b : String), i < j → l[i]? = some a → l[j]? = some b → R a b := by
  intro l hl
  induction hl with
  | nil => intro i j a b _ hi; simp at hi
  | cons hx _ ih =>
    intro i j a b hij hi hj
    cases j with
    | zero => omega
    | succ j =>
      simp only [List.getElem?_cons_succ] at hj
      cases i with
      | zero =>
        simp only [List.getElem?_cons_zero, Option.some.injEq] at hi
        subst hi
        exact hx b (List.mem_iff_getElem?.mpr ⟨j, hj⟩)
      | succ i =>
        simp only [List.getElem?_cons_succ] at hi
        exact ih i j a b (by omega) hi hj

/-- C11, the code at the failing input: the decoder has written the 10000 images
`frame_0001.jpg` .. `frame_10000.jpg`, the last of which ends in the byte `01` and all
others in `00`. The name with counter 10000 is lexically smaller than the name with
counter 1001, and the list `ExtractFramesToBase64` returns is not the list of the images in
increasing counter order. -/
theorem ExtractFramesToBase64_order_fails :
    strLt (frameName "/tmp/video_process_1" 10000) (frameName "/tmp/video_process_1" 1001)
      = true
    ∧ (ExtractFramesToBase64
        (ExtractEnv.succeeding "/tmp/video_process_1" (frameNames "/tmp/video_process_1" 10000)
          (fun path => if path = frameName "/tmp/video_process_1" 10000
            then [0xFF, 0xD8, 1] else [0xFF, 0xD8, 0]))
        [1] "Z0LADJoFAAABMA==" "aM48gA==").outcome
      ≠ .returned (.ok ((frameNames "/tmp/video_process_1" 10000).map
          (fun path => if path = frameName "/tmp/video_process_1" 10000
            then [0xFF, 0xD8, 1] else [0xFF, 0xD8, 0]))) := by
  have hlt : strLt (frameName "/tmp/video_process_1" 10000)
      (frameName "/tmp/video_process_1" 1001) = true := by decide
  refine ⟨hlt, ?_⟩
  rw [ExtractFramesToBase64_succeeding]
  intro h
  have hmap := Except.ok.inj (Outcome.returned.inj h)
  obtain ⟨hp, hs⟩ := sortFiles_perm_pairwise (frameNames "/tmp/video_process_1" 10000)
  have hlen : (sortFiles (frameNames "/tmp/video_process_1" 10000)).length = 10000 := by
    rw [hp.length_eq]; simp [frameNames]
  -- the image at the last position
  have hlast : (frameNames "/tmp/video_process_1" 10000)[9999]?
      = some (frameName "/tmp/video_process_1" 10000) := by
    simp [frameNames, List.getElem?_range]
  have h9 := congrArg (fun l => l[9999]?) hmap
  simp only [List.getElem?_map, hlast, Option.map_some', if_true] at h9
  have hsome : (sortFiles (frameNames "/tmp/video_process_1" 10000))[9999]?
      = some (frameName "/tmp/video_process_1" 10000) := by
    cases hg : (sortFiles (frameNames "/tmp/video_process_1" 10000))[9999]? with
    | none => rw [hg] at h9; simp at h9
    | some p =>
      rw [hg] at h9
      simp only [Option.map_some', Option.some.injEq] at h9
      by_cases hpe : p = frameName "/tmp/video_process_1" 10000
      · rw [hpe]
      · rw [if_neg hpe] at h9
        simp at h9
  -- the name with counter 1001 stands somewhere before it
  have hmem : frameName "/tmp/video_process_1" 1001
      ∈ sortFiles (frameNames "/tmp/video_process_1" 10000) := by
    rw [hp.mem_iff]
    simp only [frameNames, List.mem_map, List.mem_range]
    exact ⟨1000, by omega, rfl⟩
  obtain ⟨j, hjv⟩ := List.mem_iff_getElem?.mp hmem
  have hne : frameName "/tmp/video_process_1" 1001 ≠ frameName "/tmp/video_process_1" 10000 := by
    decide
  have hjlt : j < 10000 := by
    have := (List.getElem?_eq_some_iff.mp hjv).1
    omega
  have hj9 : j < 9999 := by
    rcases Nat.lt_or_ge j 9999 with hlt' | hge
    · exact hlt'
    · have : j = 9999 := by omega
      subst this
      rw [hsome] at hjv
      exact absurd (Option.some.inj hjv).symm hne
  have hpair := pairwise_getElem? _ _ hs j 9999 _ _ hj9 hjv hsome
  rw [hlt] at hpair
  cases hpair

theorem decodeAll_mismatch (decoder : List UInt8 → WavDecoder) (p : AudioFormat) :
    ∀ (inputs : List (List UInt8)) (bufs : List IntBuffer) (st : ConcatState),
      st.params = some p →
      (∀ w, w ∈ inputs → (decoder w).IsValidFile = true) →
      inputs.map (fun w => (decoder w).FullPCMBuffer) = bufs.map Except.ok →
      (∃ b, b ∈ bufs ∧
        (b.Format.SampleRate ≠ p.SampleRate ∨ b.Format.NumChannels ≠ p.NumChannels)) →
      decodeAll decoder inputs st = .error paramsMismatch := by
  intro inputs
  induction inputs with
  | nil =>
    intro bufs st _ _ hmap hex
    cases bufs with
    | nil => obtain ⟨b, hb, _⟩ := hex; simp at hb
    | cons b bs => simp at hmap
  | cons w ws ih =>
    intro bufs st hp hvalid hmap hex
    cases bufs with
    | nil => simp at hmap
    | cons b bs =>
      simp only [List.map_cons, List.cons.injEq] at hmap
      obtain ⟨hw, hrest⟩ := hmap
      have hv : (decoder w).IsValidFile = true := hvalid w (List.mem_cons_self _ _)
      by_cases hm : p.SampleRate ≠ b.Format.SampleRate ∨ p.NumChannels ≠ b.Format.NumChannels
      · simp only [decodeAll, hv, hw, hp, hm, if_true, Bool.not_true, Bool.false_eq_true,
          if_false]
      · simp only [decodeAll, hv, hw, hp, hm, if_false, Bool.not_true, Bool.false_eq_true]
        apply ih bs _ rfl (fun w' hw' => hvalid w' (List.mem_cons_of_mem _ hw')) hrest
        obtain ⟨b', hb', hne⟩ := hex
        rcases List.mem_cons.mp hb' with hb' | hb'
        · subst hb'
          exfalso
          apply hm
          rcases hne with h | h
          · exact Or.inl (Ne.symm h)
          · exact Or.inr (Ne.symm h)
        · exact ⟨b', hb', hne⟩

/-- C13: for every list of inputs that are all valid containers (each passes `IsValidFile`
and decodes to a buffer) in which some input's sample rate or channel count differs from
the first input's, `ConcatWavBytes` returns the parameter-mismatch error and no output, and
it performs no operation on the surroundings: no output file is created, no encoder is
made, nothing is written. -/
theorem ConcatWavBytes_mismatch (env : ConcatEnv) (inputs : List (List UInt8))
    (bufs : List IntBuffer) (first : IntBuffer)
    (hvalid : ∀ w, w ∈ inputs → (env.decoder w).IsValidFile = true)
    (hdecoded : inputs.map (fun w => (env.decoder w).FullPCMBuffer) = bufs.map Except.ok)
    (hfirst : bufs.head? = some first)
    (hdiff : ∃ b, b ∈ bufs ∧ (b.Format.SampleRate ≠ first.Format.SampleRate
      ∨ b.Format.NumChannels ≠ first.Format.NumChannels)) :
    (ConcatWavBytes env inputs).result = .error paramsMismatch
    ∧ (ConcatWavBytes env inputs).effects = [] := by
  cases bufs with
  | nil => simp at hfirst
  | cons b0 bs =>
    have hb0 : b0 = first := by simpa using hfirst
    subst hb0
    cases inputs with
    | nil => simp at hdecoded
    | cons w ws =>
      simp only [List.map_cons, List.cons.injEq] at hdecoded
      obtain ⟨hw, hrest⟩ := hdecoded
      have hv : (env.decoder w).IsValidFile = true := hvalid w (List.mem_cons_self _ _)
      have htail : ∃ b, b ∈ bs ∧ (b.Format.SampleRate ≠ b0.Format.SampleRate
          ∨ b.Format.NumChannels ≠ b0.Format.NumChannels) := by
        obtain ⟨b, hb, hne⟩ := hdiff
        rcases List.mem_cons.mp hb with hb | hb
        · subst hb
          rcases hne with h | h <;> exact absurd rfl h
        · exact ⟨b, hb, hne⟩
      have hloop := decodeAll_mismatch env.decoder b0.Format ws bs
        { combinedFrames := [] ++ [b0], params := some b0.Format,
          bitDepth := (env.decoder w).BitDepth } rfl
        (fun w' hw' => hvalid w' (List.mem_cons_of_mem _ hw')) hrest htail
      simp only [ConcatWavBytes, decodeAll, hv, hw, hloop, Bool.not_true, Bool.false_eq_true,
        if_false, and_self]

/-- Instance of `ConcatWavBytes_mismatch`: two containers with sample rates 16000 and
44100. -/
theorem ConcatWavBytes_mismatch_witness :
    (ConcatWavBytes (ConcatEnv.succeeding "/tmp/output-1.wav")
        [wavLayout [1, 2] 16000 1 16, wavLayout [3, 4] 44100 1 16]).result
      = .error paramsMismatch
    ∧ (ConcatWavBytes (ConcatEnv.succeeding "/tmp/output-1.wav")
        [wavLayout [1, 2] 16000 1 16, wavLayout [3, 4] 44100 1 16]).effects = [] :=
  ConcatWavBytes_mismatch (ConcatEnv.succeeding "/tmp/output-1.wav")
    [wavLayout [1, 2] 16000 1 16, wavLayout [3, 4] 44100 1 16]
    [{ Format := { NumChannels := 1, SampleRate := 16000 }, Data := [1, 2],
       SourceBitDepth := 16 },
     { Format := { NumChannels := 1, SampleRate := 44100 }, Data := [3, 4],
       SourceBitDepth := 16 }]
    { Format := { NumChannels := 1, SampleRate := 16000 }, Data := [1, 2],
      SourceBitDepth := 16 }
    (by decide) (by decide) rfl
    ⟨{ Format := { NumChannels := 1, SampleRate := 44100 }, Data := [3, 4],
       SourceBitDepth := 16 }, by decide, Or.inl (by decide)⟩

theorem decodeAll_bitDepth (decoder : List UInt8 → WavDecoder) :
    ∀ (inputs : List (List UInt8)) (st st' : ConcatState),
      decodeAll decoder inputs st = .ok st' →
      st'.bitDepth = ((inputs.getLast?).map fun w => (decoder w).BitDepth).getD st.bitDepth
      ∧ (st'.params = none → inputs = [])
      ∧ (∀ p, st.params = some p → st'.params = some p) := by
  intro inputs
  induction inputs with
  | nil =>
    intro st st' h
    simp only [decodeAll, Except.ok.injEq] at h
    subst h
    exact ⟨rfl, fun _ => rfl, fun _ hp => hp⟩
  | cons w ws ih =>
    intro st st' h
    have hlast : ∀ d : Int,
        (((w :: ws).getLast?).map fun w => (decoder w).BitDepth).getD d
          = ((ws.getLast?).map fun w => (decoder w).BitDepth).getD (decoder w).BitDepth := by
      intro d
      cases ws with
      | nil => rfl
      | cons v vs =>
        rw [List.getLast?_cons_cons]
        cases hl : (v :: vs).getLast? with
        | none => simp at hl
        | some l => rfl
    unfold decodeAll at h
    cases hv : (decoder w).IsValidFile with
    | false => simp [hv] at h
    | true =>
      simp only [hv, Bool.not_true, Bool.false_eq_true, if_false] at h
      cases hb : (decoder w).FullPCMBuffer with
      | error err => simp [hb] at h
      | ok buf =>
        simp only [hb] at h
        cases hp : st.params with
        | none =>
          simp only [hp] at h
          obtain ⟨h1, _, h3⟩ := ih _ st' h
          refine ⟨by rw [h1, hlast], ?_, fun p hp' => by cases hp'⟩
          intro hnone
          rw [h3 buf.Format rfl] at hnone
          cases hnone
        | some params =>
          simp only [hp] at h
          split at h
          · cases h
          · obtain ⟨h1, _, h3⟩ := ih _ st' h
            refine ⟨by rw [h1, hlast], ?_, ?_⟩
            · intro hnone
              rw [h3 params rfl] at hnone
              cases hnone
            · intro p hp'
              rw [← Option.some.inj hp']
              exact h3 params rfl

theorem encoderBitDepths_append (a b : List Effect) :
    encoderBitDepths (a ++ b) = encoderBitDepths a ++ encoderBitDepths b := by
  induction a with
  | nil => rfl
  | cons x xs ih => cases x <;> simp [encoderBitDepths, ih]

theorem encoderBitDepths_writeAll (write : Nat → Option String) :
    ∀ (buffers : List IntBuffer) (index : Nat),
      encoderBitDepths (writeAll write buffers index).1 = [] := by
  intro buffers
  induction buffers with
  | nil => intro index; rfl
  | cons b bs ih =>
    intro index
    unfold writeAll
    cases write index with
    | some err => rfl
    | none => simp only [encoderBitDepths, ih]

/-- C14, amended: for every list of inputs for which `ConcatWavBytes` returns an output
container, the list is not empty and the one encoder that was created, and the output, have
the bit depth of the last input in the list. -/
theorem ConcatWavBytes_bitDepth (env : ConcatEnv) (inputs : List (List UInt8))
    (out : List UInt8) (h : (ConcatWavBytes env inputs).result = .ok out) :
    ∃ last : List UInt8,
      inputs.getLast? = some last
      ∧ encoderBitDepths (ConcatWavBytes env inputs).effects = [(env.decoder last).BitDepth]
      ∧ ∃ (sampleRate numChans : Int) (frames : List IntBuffer),
          out = env.encoded sampleRate (env.decoder last).BitDepth numChans frames := by
  unfold ConcatWavBytes at h ⊢
  cases hd : decodeAll env.decoder inputs { combinedFrames := [], params := none, bitDepth := 0 } with
  | error err => simp [hd] at h
  | ok st =>
    obtain ⟨hbd, hnone, _⟩ := decodeAll_bitDepth env.decoder inputs _ st hd
    simp only [hd] at h ⊢
    cases hp : st.params with
    | none => simp [hp] at h
    | some params =>
      have hne : inputs ≠ [] := by
        intro he
        subst he
        simp only [decodeAll, Except.ok.injEq] at hd
        rw [← hd] at hp
        cases hp
      cases hl : inputs.getLast? with
      | none => exact absurd (List.getLast?_eq_none_iff.mp hl) hne
      | some last =>
        rw [hl] at hbd
        simp only [Option.map_some', Option.getD_some] at hbd
        simp only [hp] at h ⊢
        cases hc : env.createTemp with
        | error err => simp [hc] at h
        | ok tempFile =>
          simp only [hc] at h ⊢
          cases hw : (writeAll env.write st.combinedFrames 0).2 with
          | some err => simp [hw] at h
          | none =>
            simp only [hw] at h ⊢
            cases hcl : env.close with
            | some err => simp [hcl] at h
            | none =>
              simp only [hcl] at h ⊢
              cases hr : env.readAll with
              | some err => simp [hr] at h
              | none =>
                simp only [hr, Except.ok.injEq] at h ⊢
                refine ⟨last, rfl, ?_, params.SampleRate, params.NumChannels,
                  st.combinedFrames, ?_⟩
                · simp [encoderBitDepths_append, encoderBitDepths_writeAll,
                    encoderBitDepths, hbd]
                · rw [← hbd]; exact h.symm

/-- Instance of `ConcatWavBytes_bitDepth`: a 16-bit container followed by an 8-bit one. -/
theorem ConcatWavBytes_bitDepth_witness :
    ∃ last : List UInt8,
      [wavLayout [1, 2] 16000 1 16, wavLayout [3] 16000 1 8].getLast? = some last
      ∧ encoderBitDepths (ConcatWavBytes (ConcatEnv.succeeding "/tmp/output-1.wav")
          [wavLayout [1, 2] 16000 1 16, wavLayout [3] 16000 1 8]).effects
        = [((ConcatEnv.succeeding "/tmp/output-1.wav").decoder last).BitDepth] := by
  obtain ⟨last, h1, h2, _⟩ := ConcatWavBytes_bitDepth (ConcatEnv.succeeding "/tmp/output-1.wav")
    [wavLayout [1, 2] 16000 1 16, wavLayout [3] 16000 1 8] (wavLayout [1, 2, 3] 16000 1 8)
    (by decide)
  exact ⟨last, h1, h2⟩

/-- C14, counterexample: a 16-bit container followed by an 8-bit one with the same sample
rate and channel count is accepted; the encoder is created with bit depth 8, the bit depth
of the last input, not 16, the bit depth of the first. -/
theorem ConcatWavBytes_bitDepth_counterexample :
    (headerDecoder (wavLayout [1, 2] 16000 1 16)).BitDepth = 16
    ∧ (headerDecoder (wavLayout [3] 16000 1 8)).BitDepth = 8
    ∧ (ConcatWavBytes (ConcatEnv.succeeding "/tmp/output-1.wav")
        [wavLayout [1, 2] 16000 1 16, wavLayout [3] 16000 1 8]).result
      = .ok (wavLayout [1, 2, 3] 16000 1 8)
    ∧ encoderBitDepths (ConcatWavBytes (ConcatEnv.succeeding "/tmp/output-1.wav")
        [wavLayout [1, 2] 16000 1 16, wavLayout [3] 16000 1 8]).effects = [8]
    ∧ encoderBitDepths (ConcatWavBytes (ConcatEnv.succeeding "/tmp/output-1.wav")
        [wavLayout [1, 2] 16000 1 16, wavLayout [3] 16000 1 8]).effects
      ≠ [(headerDecoder (wavLayout [1, 2] 16000 1 16)).BitDepth] := by
  refine ⟨by decide, by decide, by decide, by decide, by decide⟩

theorem decodeAll_accepts (decoder : List UInt8 → WavDecoder) (p : AudioFormat) :
    ∀ (inputs : List (List UInt8)) (bufs : List IntBuffer) (st : ConcatState),
      st.params = some p →
      (∀ w, w ∈ inputs → (decoder w).IsValidFile = true) →
      inputs.map (fun w => (decoder w).FullPCMBuffer) = bufs.map Except.ok →
      (∀ b, b ∈ bufs →
        b.Format.SampleRate = p.SampleRate ∧ b.Format.NumChannels = p.NumChannels) →
      ∃ bitDepth, decodeAll decoder inputs st
        = .ok { combinedFrames := st.combinedFrames ++ bufs, params := some p,
                bitDepth := bitDepth } := by
  intro inputs
  induction inputs with
  | nil =>
    intro bufs st hp _ hmap _
    cases bufs with
    | nil =>
      refine ⟨st.bitDepth, ?_⟩
      cases st
      simp only [decodeAll, List.append_nil] at hp ⊢
      rw [hp]
    | cons b bs => simp at hmap
  | cons w ws ih =>
    intro bufs st hp hvalid hmap hsame
    cases bufs with
    | nil => simp at hmap
    | cons b bs =>
      simp only [List.map_cons, List.cons.injEq] at hmap
      obtain ⟨hw, hrest⟩ := hmap
      have hv : (decoder w).IsValidFile = true := hvalid w (List.mem_cons_self _ _)
      obtain ⟨hsr, hch⟩ := hsame b (List.mem_cons_self _ _)
      have hm : ¬ (p.SampleRate ≠ b.Format.SampleRate ∨ p.NumChannels ≠ b.Format.NumChannels) := by
        rw [hsr, hch]; simp
      obtain ⟨bd, hbd⟩ := ih bs
        { combinedFrames := st.combinedFrames ++ [b], params := some p,
          bitDepth := (decoder w).BitDepth } rfl
        (fun w' hw' => hvalid w' (List.mem_cons_of_mem _ hw')) hrest
        (fun b' hb' => hsame b' (List.mem_cons_of_mem _ hb'))
      refine ⟨bd, ?_⟩
      simp only [decodeAll, hv, hw, hp, hm, if_false, Bool.not_true, Bool.false_eq_true, hbd,
        List.append_assoc, List.singleton_append]

theorem writeAll_ok (write : Nat → Option String) (h : ∀ i, write i = none) :
    ∀ (buffers : List IntBuffer) (index : Nat), (writeAll write buffers index).2 = none := by
  intro buffers
  induction buffers with
  | nil => intro index; rfl
  | cons b bs ih =>
    intro index
    simp only [writeAll, h index, ih]

/-- C15, amended: `ConcatWavBytes` compares sample rate and channel count only. For every
list of valid containers that all have the sample rate and channel count of the first,
whatever their bit depths, no format error is returned: when the temporary file is created
and written without error, the call returns one container made of all the buffers in input
order, with the sample rate and channel count of the first input. -/
theorem ConcatWavBytes_accepts (env : ConcatEnv) (inputs : List (List UInt8))
    (bufs : List IntBuffer) (first : IntBuffer) (path : String)
    (hvalid : ∀ w, w ∈ inputs → (env.decoder w).IsValidFile = true)
    (hdecoded : inputs.map (fun w => (env.decoder w).FullPCMBuffer) = bufs.map Except.ok)
    (hfirst : bufs.head? = some first)
    (hsame : ∀ b, b ∈ bufs → b.Format.SampleRate = first.Format.SampleRate
      ∧ b.Format.NumChannels = first.Format.NumChannels)
    (hcreate : env.createTemp = .ok path) (hwrite : ∀ i, env.write i = none)
    (hclose : env.close = none) (hread : env.readAll = none) :
    ∃ bitDepth : Int,
      (ConcatWavBytes env inputs).result
        = .ok (env.encoded first.Format.SampleRate bitDepth first.Format.NumChannels bufs)
      ∧ (ConcatWavBytes env inputs).result ≠ .error paramsMismatch := by
  cases bufs with
  | nil => simp at hfirst
  | cons b0 bs =>
    have hb0 : b0 = first := by simpa using hfirst
    subst hb0
    cases inputs with
    | nil => simp at hdecoded
    | cons w ws =>
      simp only [List.map_cons, List.cons.injEq] at hdecoded
      obtain ⟨hw, hrest⟩ := hdecoded
      have hv : (env.decoder w).IsValidFile = true := hvalid w (List.mem_cons_self _ _)
      obtain ⟨bd, hbd⟩ := decodeAll_accepts env.decoder b0.Format ws bs
        { combinedFrames := [] ++ [b0], params := some b0.Format,
          bitDepth := (env.decoder w).BitDepth } rfl
        (fun w' hw' => hvalid w' (List.mem_cons_of_mem _ hw')) hrest
        (fun b' hb' => hsame b' (List.mem_cons_of_mem _ hb'))
      simp only [List.nil_append, List.singleton_append] at hbd
      have hres : (ConcatWavBytes env (w :: ws)).result
          = .ok (env.encoded b0.Format.SampleRate bd b0.Format.NumChannels (b0 :: bs)) := by
        simp only [ConcatWavBytes, decodeAll, hv, hw, hbd, Bool.not_true, Bool.false_eq_true,
          if_false, hcreate, writeAll_ok env.write hwrite, hclose, hread, List.nil_append,
          List.singleton_append]
      refine ⟨bd, hres, ?_⟩
      rw [hres]
      intro hne
      cases hne

/-- Instance of `ConcatWavBytes_accepts`: a 16-bit container followed by an 8-bit one. -/
theorem ConcatWavBytes_accepts_witness :
    ∃ bitDepth : Int,
      (ConcatWavBytes (ConcatEnv.succeeding "/tmp/output-1.wav")
          [wavLayout [1, 2] 16000 1 16, wavLayout [3] 16000 1 8]).result
        = .ok ((ConcatEnv.succeeding "/tmp/output-1.wav").encoded 16000 bitDepth 1
            [{ Format := { NumChannels := 1, SampleRate := 16000 }, Data := [1, 2],
               SourceBitDepth := 16 },
             { Format := { NumChannels := 1, SampleRate := 16000 }, Data := [3],
               SourceBitDepth := 8 }]) := by
  obtain ⟨bd, h, _⟩ := ConcatWavBytes_accepts (ConcatEnv.succeeding "/tmp/output-1.wav")
    [wavLayout [1, 2] 16000 1 16, wavLayout [3] 16000 1 8]
    [{ Format := { NumChannels := 1, SampleRate := 16000 }, Data := [1, 2],
       SourceBitDepth := 16 },
     { Format := { NumChannels := 1, SampleRate := 16000 }, Data := [3],
       SourceBitDepth := 8 }]
    { Format := { NumChannels := 1, SampleRate := 16000 }, Data := [1, 2],
      SourceBitDepth := 16 }
    "/tmp/output-1.wav" (by decide) (by decide) rfl (by decide) rfl (fun _ => rfl) rfl rfl
  exact ⟨bd, h⟩

/-- C15, counterexample: two valid containers with equal sample rate and channel count and
bit depths 16 and 8; `ConcatWavBytes` returns a container, not a format error. -/
theorem ConcatWavBytes_accepts_counterexample :
    (headerDecoder (wavLayout [1, 2] 16000 1 16)).BitDepth
      ≠ (headerDecoder (wavLayout [3] 16000 1 8)).BitDepth
    ∧ (headerDecoder (wavLayout [1, 2] 16000 1 16)).IsValidFile = true
    ∧ (headerDecoder (wavLayout [3] 16000 1 8)).IsValidFile = true
    ∧ (ConcatWavBytes (ConcatEnv.succeeding "/tmp/output-1.wav")
        [wavLayout [1, 2] 16000 1 16, wavLayout [3] 16000 1 8]).result
      = .ok (wavLayout [1, 2, 3] 16000 1 8)
    ∧ (ConcatWavBytes (ConcatEnv.succeeding "/tmp/output-1.wav")
        [wavLayout [1, 2] 16000 1 16, wavLayout [3] 16000 1 8]).result
      ≠ .error paramsMismatch := by
  refine ⟨by decide, by decide, by decide, by decide, by decide⟩

/-- C16: when the dial fails on a client that is not connected, `Connect` returns the dial
error and leaves the client as it was, so Disconnected with the same connection handle; one
dial was made, no receive loop was started, and a following `Send` returns the error
"not connected" without writing. -/
theorem Connect_dial_failure (err : String) (r : realtimeClient)
    (h : r.isConnected = false) :
    (Connect (.error err) r).outcome = .returned (some err)
    ∧ (Connect (.error err) r).client = r
    ∧ (Connect (.error err) r).client.isConnected = false
    ∧ (Connect (.error err) r).client.conn = r.conn
    ∧ dialCount (Connect (.error err) r).effects = 1
    ∧ readLoopCount (Connect (.error err) r).effects = 0
    ∧ (∀ (now : Int) (writeErr : Option String) (event : Event),
        (Send now writeErr (Connect (.error err) r).client event).outcome
          = .returned (some "not connected")
        ∧ (Send now writeErr (Connect (.error err) r).client event).effects = []) := by
  have hc : Connect (.error err) r
      = ⟨r, [.dial r.url (if r.apiKey ≠ "" then some ("Bearer " ++ r.apiKey) else none)],
          .returned (some err)⟩ := by
    simp [Connect, h]
  rw [hc]
  refine ⟨rfl, rfl, h, rfl, rfl, rfl, ?_⟩
  intro now writeErr event
  simp [Send, h]

/-- Instance of `Connect_dial_failure` at a fresh client. -/
theorem Connect_dial_failure_witness :
    (Connect (.error "dial tcp: connection refused")
        (NewRealtimeClient "wss://host/realtime" "key" none)).outcome
      = .returned (some "dial tcp: connection refused")
    ∧ (Connect (.error "dial tcp: connection refused")
        (NewRealtimeClient "wss://host/realtime" "key" none)).client.isConnected = false :=
  ⟨(Connect_dial_failure "dial tcp: connection refused"
      (NewRealtimeClient "wss://host/realtime" "key" none) rfl).1,
   (Connect_dial_failure "dial tcp: connection refused"
      (NewRealtimeClient "wss://host/realtime" "key" none) rfl).2.2.1⟩

theorem readCount_append (a b : List Effect) :
    readCount (a ++ b) = readCount a + readCount b := by
  induction a with
  | nil => simp [readCount]
  | cons x xs ih =>
    cases x <;> simp [readCount, ih]
    omega

theorem readLoop_accepted (unmarshal : List UInt8 → Except String Event) (deadline : Int)
    (r : realtimeClient) (c : Conn) (onReceived : Event → Option String)
    (hc : r.isConnected = true) (hconn : r.conn = some c)
    (hcb : r.onReceived = some onReceived) :
    ∀ (accepted script : List Inbound),
      (∀ inb, inb ∈ accepted → inb.now ≤ deadline ∧ ∃ message event,
        inb.read = .ok message ∧ unmarshal message = .ok event ∧ onReceived event = none) →
      ∃ pre : List Effect,
        readLoop unmarshal deadline (accepted ++ script) r
          = ((readLoop unmarshal deadline script r).1,
             pre ++ (readLoop unmarshal deadline script r).2.1,
             (readLoop unmarshal deadline script r).2.2)
        ∧ readCount pre = accepted.length
        ∧ pre.length = 3 * accepted.length := by
  intro accepted
  induction accepted with
  | nil => intro script _; exact ⟨[], rfl, rfl, rfl⟩
  | cons inb rest ih =>
    intro script hacc
    obtain ⟨hnow, message, event, hread, hok, hcall⟩ := hacc inb (List.mem_cons_self _ _)
    obtain ⟨pre, hpre, hcount, hlen⟩ :=
      ih script (fun i hi => hacc i (List.mem_cons_of_mem _ hi))
    refine ⟨.setReadDeadline c :: .readMessage c :: .onReceived event :: pre, ?_, ?_, ?_⟩
    · rw [List.cons_append]
      simp only [readLoop, hc, hconn, hcb, hread, hok, hcall, Bool.not_true,
        Bool.false_eq_true, if_false, not_lt.mpr hnow, gt_iff_lt]
      rw [hpre]
      rfl
    · simp only [readCount, hcount, List.length_cons]
    · simp only [List.length_cons, hlen]
      omega

/-- C12, amended: for every connected client with a registered inbound callback, after any
number of messages that were read, decoded and accepted by the callback, when the receive
loop reads a message on which `json.Unmarshal` fails (any text that is not valid JSON),
that iteration disconnects and ends the loop: the connection state is Disconnected
afterwards, the socket is closed right after that read, no further message is read (one
read per accepted message and one for the malformed one) and `readWsMsg` has returned,
whatever else the surroundings had to offer. -/
theorem readWsMsg_malformed (unmarshal : List UInt8 → Except String Event) (start : Int)
    (accepted : List Inbound) (inbound : Inbound) (rest : List Inbound) (r : realtimeClient)
    (c : Conn) (onReceived : Event → Option String) (n : Nat) (message : List UInt8)
    (err : String)
    (hc : r.isConnected = true) (hconn : r.conn = some c)
    (hcb : r.onReceived = some onReceived) (hwg : r.wg = some (n + 1))
    (haccepted : ∀ inb, inb ∈ accepted → inb.now ≤ start + waitTimeout ∧ ∃ message event,
      inb.read = .ok message ∧ unmarshal message = .ok event ∧ onReceived event = none)
    (hnow : inbound.now ≤ start + waitTimeout)
    (hread : inbound.read = .ok message) (hbad : unmarshal message = .error err) :
    (readWsMsg unmarshal start (accepted ++ inbound :: rest) r).client.isConnected = false
    ∧ (readWsMsg unmarshal start (accepted ++ inbound :: rest) r).status = .returned
    ∧ (∃ pre : List Effect,
        (readWsMsg unmarshal start (accepted ++ inbound :: rest) r).effects
          = pre ++ [.setReadDeadline c, .readMessage c, .closeConn c, .wgDone]
        ∧ readCount pre = accepted.length
        ∧ pre.length = 3 * accepted.length)
    ∧ readCount (readWsMsg unmarshal start (accepted ++ inbound :: rest) r).effects
        = accepted.length + 1 := by
  have hd : Disconnect inbound.closeErr r
      = ⟨{ r with isConnected := false }, [.closeConn c], .returned inbound.closeErr⟩ := by
    simp [Disconnect, hc, hconn]
  have hlast : readLoop unmarshal (start + waitTimeout) (inbound :: rest) r
      = ({ r with isConnected := false },
          [.setReadDeadline c, .readMessage c, .closeConn c], .returned) := by
    simp only [readLoop, hc, hconn, hcb, hread, hbad, hd, Bool.not_true, Bool.false_eq_true,
      if_false, not_lt.mpr hnow, gt_iff_lt]
  obtain ⟨pre, hpre, hcount, hlen⟩ := readLoop_accepted unmarshal (start + waitTimeout) r c
    onReceived hc hconn hcb accepted (inbound :: rest) haccepted
  rw [hlast] at hpre
  have hrun : readWsMsg unmarshal start (accepted ++ inbound :: rest) r
      = ⟨{ r with isConnected := false, wg := some n },
          (pre ++ [.setReadDeadline c, .readMessage c, .closeConn c]) ++ [.wgDone],
          .returned⟩ := by
    simp only [readWsMsg, hpre, hwg]
  rw [hrun]
  refine ⟨rfl, rfl, ⟨pre, by simp, hcount, hlen⟩, ?_⟩
  simp only [readCount_append, readCount, hcount]

/-- Instance of `readWsMsg_malformed`: a client connected with a callback reads an accepted
event, then the text `not json`, while a further event waits to be read. -/
theorem readWsMsg_malformed_witness :
    (readWsMsg
        (fun message => if message = strBytes "not json" then .error "invalid character"
          else .ok (Event.ofType "response.created")) 0
        ([{ now := 1, read := .ok (strBytes "event"), closeErr := none }] ++
          { now := 2, read := .ok (strBytes "not json"), closeErr := none } ::
          [{ now := 3, read := .ok (strBytes "event"), closeErr := none }])
        (Connect (.ok ⟨1⟩)
          (NewRealtimeClient "wss://host/realtime" "key" (some fun _ => none))).client
      ).client.isConnected = false
    ∧ readCount (readWsMsg
        (fun message => if message = strBytes "not json" then .error "invalid character"
          else .ok (Event.ofType "response.created")) 0
        ([{ now := 1, read := .ok (strBytes "event"), closeErr := none }] ++
          { now := 2, read := .ok (strBytes "not json"), closeErr := none } ::
          [{ now := 3, read := .ok (strBytes "event"), closeErr := none }])
        (Connect (.ok ⟨1⟩)
          (NewRealtimeClient "wss://host/realtime" "key" (some fun _ => none))).client
      ).effects = 2 := by
  have h := readWsMsg_malformed
    (fun message => if message = strBytes "not json" then .error "invalid character"
      else .ok (Event.ofType "response.created")) 0
    [{ now := 1, read := .ok (strBytes "event"), closeErr := none }]
    { now := 2, read := .ok (strBytes "not json"), closeErr := none }
    [{ now := 3, read := .ok (strBytes "event"), closeErr := none }]
    (Connect (.ok ⟨1⟩)
      (NewRealtimeClient "wss://host/realtime" "key" (some fun _ => none))).client
    ⟨1⟩ (fun _ => none) 0 (strBytes "not json") "invalid character"
    rfl rfl rfl rfl
    (by
      intro inb hinb
      rw [List.mem_singleton] at hinb
      subst hinb
      exact ⟨by decide, strBytes "event", Event.ofType "response.created", rfl, rfl, rfl⟩)
    (by decide) rfl rfl
  exact ⟨h.1, h.2.2.2⟩

/-- C12, counterexample: a client connected without a callback reads a message that is not
valid JSON; the message is dropped before any decoding, the client stays Connected and the
loop reads a second message (here a read error, on which it returns). -/
theorem readWsMsg_malformed_counterexample :
    (Connect (.ok ⟨1⟩) (NewRealtimeClient "wss://host/realtime" "key" none)).client.isConnected
      = true
    ∧ (readWsMsg (fun _ => .error "invalid character") 0
        [{ now := 1, read := .ok (strBytes "not json"), closeErr := none },
         { now := 2, read := .error "unexpected EOF", closeErr := none }]
        (Connect (.ok ⟨1⟩) (NewRealtimeClient "wss://host/realtime" "key" none)).client
      ).client.isConnected = true
    ∧ readCount (readWsMsg (fun _ => .error "invalid character") 0
        [{ now := 1, read := .ok (strBytes "not json"), closeErr := none },
         { now := 2, read := .error "unexpected EOF", closeErr := none }]
        (Connect (.ok ⟨1⟩) (NewRealtimeClient "wss://host/realtime" "key" none)).client
      ).effects = 2
    ∧ (readWsMsg (fun _ => .error "invalid character") 0
        [{ now := 1, read := .ok (strBytes "not json"), closeErr := none }]
        (Connect (.ok ⟨1⟩) (NewRealtimeClient "wss://host/realtime" "key" none)).client
      ).status = .waiting
    ∧ (readWsMsg (fun _ => .error "invalid character") 0
        [{ now := 1, read := .ok (strBytes "not json"), closeErr := none }]
        (Connect (.ok ⟨1⟩) (NewRealtimeClient "wss://host/realtime" "key" none)).client
      ).client.isConnected ≠ false := by
  refine ⟨rfl, by decide, by decide, by decide, by decide⟩

/-- The member of each key of the object of an event is the encoding of the field the
struct tag of `Event` gives that key. -/
theorem eventFields_member (e : Event) (session response rateLimits : Option JValue) :
    (JValue.obj (members (eventFields e session response rateLimits))).member "event_id"
        = omitString e.EventID
    ∧ (JValue.obj (members (eventFields e session response rateLimits))).member "type"
        = some (JValue.str e.Type_)
    ∧ (JValue.obj (members (eventFields e session response rateLimits))).member "session"
        = session
    ∧ (JValue.obj (members (eventFields e session response rateLimits))).member "audio"
        = omitString e.Audio
    ∧ (JValue.obj (members (eventFields e session response rateLimits))).member "response"
        = response
    ∧ (JValue.obj (members (eventFields e session response rateLimits))).member "item_id"
        = omitString e.ItemID
    ∧ (JValue.obj (members (eventFields e session response rateLimits))).member "previous_item_id"
        = omitString e.PreviousItemID
    ∧ (JValue.obj (members (eventFields e session response rateLimits))).member "response_id"
        = omitString e.ResponseID
    ∧ (JValue.obj (members (eventFields e session response rateLimits))).member "output_index"
        = omitInt e.OutputIndex
    ∧ (JValue.obj (members (eventFields e session response rateLimits))).member "content_index"
        = omitInt e.ContentIndex
    ∧ (JValue.obj (members (eventFields e session response rateLimits))).member "delta"
        = some (JValue.str e.Delta)
    ∧ (JValue.obj (members (eventFields e session response rateLimits))).member "item"
        = e.Item.map marshalItem
    ∧ (JValue.obj (members (eventFields e session response rateLimits))).member "client_timestamp"
        = omitInt e.ClientTimestamp
    ∧ (JValue.obj (members (eventFields e session response rateLimits))).member "text"
        = e.Text.map JValue.str
    ∧ (JValue.obj (members (eventFields e session response rateLimits))).member "transcript"
        = e.Transcript.map JValue.str
    ∧ (JValue.obj (members (eventFields e session response rateLimits))).member "name"
        = omitString e.Name
    ∧ (JValue.obj (members (eventFields e session response rateLimits))).member "call_id"
        = omitString e.CallID
    ∧ (JValue.obj (members (eventFields e session response rateLimits))).member "arguments"
        = omitString e.Arguments
    ∧ (JValue.obj (members (eventFields e session response rateLimits))).member "video_frame"
        = omitBytes e.VideoFrame
    ∧ (JValue.obj (members (eventFields e session response rateLimits))).member "instructions"
        = omitString e.Instructions
    ∧ (JValue.obj (members (eventFields e session response rateLimits))).member "error"
        = e.Error.map marshalEventError
    ∧ (JValue.obj (members (eventFields e session response rateLimits))).member "conversation"
        = e.Conversation.map marshalConversation
    ∧ (JValue.obj (members (eventFields e session response rateLimits))).member "part"
        = e.Part.map marshalContentPart
    ∧ (JValue.obj (members (eventFields e session response rateLimits))).member "audio_start_ms"
        = omitInt e.AudioStartMS
    ∧ (JValue.obj (members (eventFields e session response rateLimits))).member "audio_end_ms"
        = omitInt e.AudioEndMS
    ∧ (JValue.obj (members (eventFields e session response rateLimits))).member "rate_limits"
        = rateLimits := by
  refine ⟨?_, ?_, ?_, ?_, ?_, ?_, ?_, ?_, ?_, ?_, ?_, ?_, ?_, ?_, ?_, ?_, ?_, ?_, ?_, ?_, ?_, ?_, ?_, ?_, ?_, ?_⟩
  · simp only [JValue.member, eventFields, members_cons_lookup]
    simp only [String.reduceEq, if_false, if_true]
    cases omitString e.EventID <;> simp [members]
  · simp only [JValue.member, eventFields, members_cons_lookup]
    simp only [String.reduceEq, if_false, if_true]
  · simp only [JValue.member, eventFields, members_cons_lookup]
    simp only [String.reduceEq, if_false, if_true]
    cases session <;> simp [members]
  · simp only [JValue.member, eventFields, members_cons_lookup]
    simp only [String.reduceEq, if_false, if_true]
    cases omitString e.Audio <;> simp [members]
  · simp only [JValue.member, eventFields, members_cons_lookup]
    simp only [String.reduceEq, if_false, if_true]
    cases response <;> simp [members]
  · simp only [JValue.member, eventFields, members_cons_lookup]
    simp only [String.reduceEq, if_false, if_true]
    cases omitString e.ItemID <;> simp [members]
  · simp only [JValue.member, eventFields, members_cons_lookup]
    simp only [String.reduceEq, if_false, if_true]
    cases omitString e.PreviousItemID <;> simp [members]
  · simp only [JValue.member, eventFields, members_cons_lookup]
    simp only [String.reduceEq, if_false, if_true]
    cases omitString e.ResponseID <;> simp [members]
  · simp only [JValue.member, eventFields, members_cons_lookup]
    simp only [String.reduceEq, if_false, if_true]
    cases omitInt e.OutputIndex <;> simp [members]
  · simp only [JValue.member, eventFields, members_cons_lookup]
    simp only [String.reduceEq, if_false, if_true]
    cases omitInt e.ContentIndex <;> simp [members]
  · simp only [JValue.member, eventFields, members_cons_lookup]
    simp only [String.reduceEq, if_false, if_true]
  · simp only [JValue.member, eventFields, members_cons_lookup]
    simp only [String.reduceEq, if_false, if_true]
    cases e.Item.map marshalItem <;> simp [members]
  · simp only [JValue.member, eventFields, members_cons_lookup]
    simp only [String.reduceEq, if_false, if_true]
    cases omitInt e.ClientTimestamp <;> simp [members]
  · simp only [JValue.member, eventFields, members_cons_lookup]
    simp only [String.reduceEq, if_false, if_true]
    cases e.Text.map JValue.str <;> simp [members]
  · simp only [JValue.member, eventFields, members_cons_lookup]
    simp only [String.reduceEq, if_false, if_true]
    cases e.Transcript.map JValue.str <;> simp [members]
  · simp only [JValue.member, eventFields, members_cons_lookup]
    simp only [String.reduceEq, if_false, if_true]
    cases omitString e.Name <;> simp [members]
  · simp only [JValue.member, eventFields, members_cons_lookup]
    simp only [String.reduceEq, if_false, if_true]
    cases omitString e.CallID <;> simp [members]
  · simp only [JValue.member, eventFields, members_cons_lookup]
    simp only [String.reduceEq, if_false, if_true]
    cases omitString e.Arguments <;> simp [members]
  · simp only [JValue.member, eventFields, members_cons_lookup]
    simp only [String.reduceEq, if_false, if_true]
    cases omitBytes e.VideoFrame <;> simp [members]
  · simp only [JValue.member, eventFields, members_cons_lookup]
    simp only [String.reduceEq, if_false, if_true]
    cases omitString e.Instructions <;> simp [members]
  · simp only [JValue.member, eventFields, members_cons_lookup]
    simp only [String.reduceEq, if_false, if_true]
    cases e.Error.map marshalEventError <;> simp [members]
  · simp only [JValue.member, eventFields, members_cons_lookup]
    simp only [String.reduceEq, if_false, if_true]
    cases e.Conversation.map marshalConversation <;> simp [members]
  · simp only [JValue.member, eventFields, members_cons_lookup]
    simp only [String.reduceEq, if_false, if_true]
    cases e.Part.map marshalContentPart <;> simp [members]
  · simp only [JValue.member, eventFields, members_cons_lookup]
    simp only [String.reduceEq, if_false, if_true]
    cases omitInt e.AudioStartMS <;> simp [members]
  · simp only [JValue.member, eventFields, members_cons_lookup]
    simp only [String.reduceEq, if_false, if_true]
    cases omitInt e.AudioEndMS <;> simp [members]
  · simp only [JValue.member, eventFields, members_cons_lookup]
    simp only [String.reduceEq, if_false, if_true]
    cases rateLimits <;> simp [members]

theorem members_keys_sublist (fields : List (String × Option JValue)) :
    ((members fields).map Prod.fst).Sublist (fields.map Prod.fst) := by
  induction fields with
  | nil => exact List.Sublist.slnil
  | cons kv rest ih =>
    obtain ⟨k, ov⟩ := kv
    cases ov with
    | none => exact List.Sublist.cons _ (by simpa [members] using ih)
    | some v => exact List.Sublist.cons₂ _ (by simpa [members] using ih)

/-- C17, amended: for every event on which `json.Marshal` succeeds, the payload of `ToJson`
is an object whose keys are among the JSON keys of `Event`, in struct order; it always
contains `type` and `delta` with the values of the event, and every other field left at its
unset value (empty string, zero, nil, length zero) is absent. So an event with only `Type`
set serializes to the object with the two keys `type` and `delta`. -/
theorem ToJson_fields (e : Event) (v : JValue) (h : marshalEvent e = .ok v) :
    e.ToJson = .json v
    ∧ v.keys.Sublist eventKeys
    ∧ v.member "type" = some (.str e.Type_)
    ∧ v.member "delta" = some (.str e.Delta)
    ∧ (e.EventID = "" → v.member "event_id" = none)
    ∧ (e.Session = none → v.member "session" = none)
    ∧ (e.Audio = "" → v.member "audio" = none)
    ∧ (e.Response = none → v.member "response" = none)
    ∧ (e.ItemID = "" → v.member "item_id" = none)
    ∧ (e.PreviousItemID = "" → v.member "previous_item_id" = none)
    ∧ (e.ResponseID = "" → v.member "response_id" = none)
    ∧ (e.OutputIndex = 0 → v.member "output_index" = none)
    ∧ (e.ContentIndex = 0 → v.member "content_index" = none)
    ∧ (e.Item = none → v.member "item" = none)
    ∧ (e.ClientTimestamp = 0 → v.member "client_timestamp" = none)
    ∧ (e.Text = none → v.member "text" = none)
    ∧ (e.Transcript = none → v.member "transcript" = none)
    ∧ (e.Name = "" → v.member "name" = none)
    ∧ (e.CallID = "" → v.member "call_id" = none)
    ∧ (e.Arguments = "" → v.member "arguments" = none)
    ∧ (e.VideoFrame = none ∨ e.VideoFrame = some [] → v.member "video_frame" = none)
    ∧ (e.Instructions = "" → v.member "instructions" = none)
    ∧ (e.Error = none → v.member "error" = none)
    ∧ (e.Conversation = none → v.member "conversation" = none)
    ∧ (e.Part = none → v.member "part" = none)
    ∧ (e.AudioStartMS = 0 → v.member "audio_start_ms" = none)
    ∧ (e.AudioEndMS = 0 → v.member "audio_end_ms" = none)
    ∧ (e.RateLimits = [] → v.member "rate_limits" = none)
    ∧ (∀ t : String, (Event.ofType t).ToJson
        = .json (.obj [("type", .str t), ("delta", .str "")]))
    ∧ (∀ t : String, (Event.ofType t).ToJson.keys = ["type", "delta"]) := by
  obtain ⟨s, r, l, hs, hr, hl, hv⟩ := marshalEvent_ok e v h
  obtain ⟨m1, m2, m3, m4, m5, m6, m7, m8, m9, m10, m11, m12, m13, m14, m15, m16, m17, m18,
    m19, m20, m21, m22, m23, m24, m25, m26⟩ := eventFields_member e s r l
  have hofType : ∀ t : String, (Event.ofType t).ToJson
      = .json (.obj [("type", .str t), ("delta", .str "")]) := by
    intro t
    rfl
  subst hv
  refine ⟨by simp only [Event.ToJson, h], ?_, m2, m11, ?_, ?_, ?_, ?_, ?_, ?_, ?_, ?_, ?_, ?_,
    ?_, ?_, ?_, ?_, ?_, ?_, ?_, ?_, ?_, ?_, ?_, ?_, ?_, ?_, hofType, ?_⟩
  · exact members_keys_sublist (eventFields e s r l)
  · intro hz
    rw [m1, hz]
    rfl
  · intro hz
    rw [hz] at hs
    simp only [omitPtr, Except.ok.injEq] at hs
    rw [m3, ← hs]
  · intro hz
    rw [m4, hz]
    rfl
  · intro hz
    rw [hz] at hr
    simp only [omitPtr, Except.ok.injEq] at hr
    rw [m5, ← hr]
  · intro hz
    rw [m6, hz]
    rfl
  · intro hz
    rw [m7, hz]
    rfl
  · intro hz
    rw [m8, hz]
    rfl
  · intro hz
    rw [m9, hz]
    rfl
  · intro hz
    rw [m10, hz]
    rfl
  · intro hz
    rw [m12, hz]
    rfl
  · intro hz
    rw [m13, hz]
    rfl
  · intro hz
    rw [m14, hz]
    rfl
  · intro hz
    rw [m15, hz]
    rfl
  · intro hz
    rw [m16, hz]
    rfl
  · intro hz
    rw [m17, hz]
    rfl
  · intro hz
    rw [m18, hz]
    rfl
  · intro hz
    rw [m19]
    rcases hz with hz | hz <;> rw [hz] <;> rfl
  · intro hz
    rw [m20, hz]
    rfl
  · intro hz
    rw [m21, hz]
    rfl
  · intro hz
    rw [m22, hz]
    rfl
  · intro hz
    rw [m23, hz]
    rfl
  · intro hz
    rw [m24, hz]
    rfl
  · intro hz
    rw [m25, hz]
    rfl
  · intro hz
    rw [hz] at hl
    simp only [omitListM, List.isEmpty_nil, if_true, Except.ok.injEq] at hl
    rw [m26, ← hl]
  · intro t
    rw [hofType t]
    rfl

/-- Instance of `ToJson_fields` at an event with only its type set. -/
theorem ToJson_fields_witness :
    (Event.ofType "response.create").ToJson
      = .json (.obj [("type", .str "response.create"), ("delta", .str "")])
    ∧ (JValue.obj [("type", .str "response.create"), ("delta", .str "")]).member "event_id"
      = none :=
  ⟨(ToJson_fields (Event.ofType "response.create")
      (.obj [("type", .str "response.create"), ("delta", .str "")]) rfl).1,
   (ToJson_fields (Event.ofType "response.create")
      (.obj [("type", .str "response.create"), ("delta", .str "")]) rfl).2.2.2.2.1 rfl⟩

/-- C17, counterexample: the event with only `Type` set, `Delta` left at the empty string,
serializes to an object with the two keys `type` and `delta`, not to one with the single key
`type`: the field `Delta` has the tag `json:"delta"` without `omitempty`. -/
theorem ToJson_fields_counterexample :
    (Event.ofType "response.create").Delta = ""
    ∧ (Event.ofType "response.create").ToJson.keys = ["type", "delta"]
    ∧ (Event.ofType "response.create").ToJson.keys ≠ ["type"]
    ∧ ((Event.ofType "response.create").ToJson.member "delta").isSome = true := by
  refine ⟨rfl, by decide, by decide, by decide⟩

theorem charsLt_append_left (p a b : List Char) : charsLt (p ++ a) (p ++ b) = charsLt a b := by
  induction p with
  | nil => rfl
  | cons c cs ih => simp [charsLt, ih]

theorem digit_toNat (d : Nat) (h : d < 10) : (Char.ofNat (48 + d)).toNat = 48 + d := by
  interval_cases d <;> rfl

theorem decimalDigits_small (n : Nat) (h : n < 10000) :
    List.replicate (4 - (decimalDigits 20 n).length) '0' ++ decimalDigits 20 n
      = [Char.ofNat (48 + n / 1000), Char.ofNat (48 + n / 100 % 10),
         Char.ofNat (48 + n / 10 % 10), Char.ofNat (48 + n % 10)] := by
  by_cases h1 : n < 10
  · have e1 : n / 1000 = 0 := by omega
    have e2 : n / 100 % 10 = 0 := by omega
    have e3 : n / 10 % 10 = 0 := by omega
    have e4 : n % 10 = n := by omega
    simp [decimalDigits, h1, e1, e2, e3, e4]
  · by_cases h2 : n < 100
    · have e1 : n / 1000 = 0 := by omega
      have e2 : n / 100 % 10 = 0 := by omega
      have e3 : n / 10 % 10 = n / 10 := by omega
      have h3 : n / 10 < 10 := by omega
      simp [decimalDigits, h1, h3, e1, e2, e3]
    · by_cases h3 : n < 1000
      · have e1 : n / 1000 = 0 := by omega
        have e2 : n / 100 % 10 = n / 10 / 10 := by omega
        have h4 : ¬ n / 10 < 10 := by omega
        have h5 : n / 10 / 10 < 10 := by omega
        simp [decimalDigits, h1, h4, h5, e1, e2]
      · have e1 : n / 1000 = n / 10 / 10 / 10 := by omega
        have e2 : n / 100 % 10 = n / 10 / 10 % 10 := by omega
        have h4 : ¬ n / 10 < 10 := by omega
        have h5 : ¬ n / 10 / 10 < 10 := by omega
        have h6 : n / 10 / 10 / 10 < 10 := by omega
        simp [decimalDigits, h1, h4, h5, h6, e1, e2]

theorem frameName_toList (dir : String) (k : Nat) :
    (frameName dir k).toList
      = (dir.toList ++ ['/', 'f', 'r', 'a', 'm', 'e', '_'])
        ++ ((pad4 k).toList ++ ['.', 'j', 'p', 'g']) := by
  simp [frameName, pathJoin, String.toList, String.data_append]

theorem frameName_lt (dir : String) (j k : Nat) (hjk : j < k) (hk : k < 10000) :
    strLt (frameName dir j) (frameName dir k) = true := by
  have hj : j < 10000 := by omega
  have d1 := digit_toNat (j / 1000) (by omega)
  have d2 := digit_toNat (j / 100 % 10) (by omega)
  have d3 := digit_toNat (j / 10 % 10) (by omega)
  have d4 := digit_toNat (j % 10) (by omega)
  have d5 := digit_toNat (k / 1000) (by omega)
  have d6 := digit_toNat (k / 100 % 10) (by omega)
  have d7 := digit_toNat (k / 10 % 10) (by omega)
  have d8 := digit_toNat (k % 10) (by omega)
  unfold strLt
  rw [frameName_toList, frameName_toList, charsLt_append_left]
  simp only [pad4, decimalDigits_small j hj, decimalDigits_small k hk, List.cons_append,
    List.nil_append, charsLt, d1, d2, d3, d4, d5, d6, d7, d8, Bool.or_eq_true, Bool.and_eq_true,
    decide_eq_true_eq]
  omega

theorem frameNames_sorted (dir : String) (n : Nat) (hn : n ≤ 9999) :
    (frameNames dir n).Pairwise (fun a b => strLt b a = false) := by
  unfold frameNames
  rw [List.pairwise_map]
  refine (List.pairwise_lt_range n).imp_of_mem ?_
  intro j k _ hk hjk
  have hk' : k < n := List.mem_range.mp hk
  exact strLt_asymm _ _ (frameName_lt dir (j + 1) (k + 1) (by omega) (by omega))

/-- While the counters have at most four digits (`n <= 9999`), the frames come back in
counter order whatever order the directory listing has. -/
theorem ExtractFramesToBase64_order_small (dir : String) (n : Nat) (hn : n ≤ 9999)
    (listed : List String) (hperm : listed.Perm (frameNames dir n))
    (content : String → List UInt8) (data : List UInt8) :
    (ExtractFramesToBase64 (ExtractEnv.succeeding dir listed content) data
        "Z0LADJoFAAABMA==" "aM48gA==").outcome
      = .returned (.ok ((frameNames dir n).map content)) := by
  obtain ⟨hp, hs⟩ := sortFiles_perm_pairwise listed
  haveI : IsAntisymm String (fun a b => strLt b a = false) :=
    ⟨fun a b hab hba => strLt_total a b hba hab⟩
  have he : sortFiles listed = frameNames dir n :=
    List.eq_of_perm_of_sorted (hp.trans hperm) hs (frameNames_sorted dir n hn)
  rw [ExtractFramesToBase64_succeeding, he]

end Glm
